import Mathlib

/-!
# Edge-GallyRAG pipeline-builder code generator: formal model

A shallow embedding of the visual-pipeline compiler in
`pipeline-builder/src/utils/codeGenerator.ts` (class `CodeGenerator` and the
convenience entry point `generateCodeFromPipeline`), together with the type
declarations it consumes (`NodeType`, `DataType`, `Pipeline`, `GeneratedCode`,
appearing in `pipeline-builder/src/data/nodeTemplates.ts`).

Modelling conventions:

* TypeScript strings are Lean `String`s.  The `NodeType` and `DataType`
  string-literal unions are modelled as `String` constants, because at run
  time the `as NodeType` casts in `buildPipeline` let any string through.
* A JavaScript value that may be `undefined`/`null` is an `Option`.
  The short-circuit `x || d` on strings also replaces the empty string
  (falsy in JS); `jsOr` reproduces that.
* `CodeGenerator.topologicalSort` is general recursion over a mutable
  visited/visiting state; it is embedded with an explicit fuel argument.
  `visit_isSome_of_fuel` proves the fuel chosen by `topologicalSort` can
  never run out, so the embedding computes exactly the TypeScript result
  (`none` corresponds to the TypeScript `null`).
* The single non-deterministic input, `new Date().toISOString()` in
  `generateKotlinCode`, is threaded in as the explicit parameter `now`.
  The `Date.now()` pipeline id and `createdAt`/`updatedAt` fields built by
  `buildPipeline` are never read by validation, scheduling or emission and
  are omitted from the `Pipeline` record.
* The only statement in `CodeGenerator.generate`'s `try` block that can
  throw is the non-null assertion `this.pipeline.nodes.find(...)!` used by
  `generateClassBody` / `generateExecutionSequence`; emission is therefore
  `Except String String`, and `generate` converts an `error` exactly like
  the `catch` branch does.
* JavaScript numbers inside node `config` objects are carried as their
  printed form (`ConfigVal.num`), which is the only thing emission ever
  observes of them.
-/

/-- `x || d` on an optional JS string: `undefined`, `null` and `""` are falsy. -/
def jsOr (x : Option String) (d : String) : String :=
  match x with
  | none => d
  | some s => if s = "" then d else s

/-! The `NodeType` string-literal union (`nodeTemplates.ts`). -/

namespace NodeType

def INPUT : String := "input"

def PROCESSING : String := "processing"

def RETRIEVAL : String := "retrieval"

def LLM : String := "llm"

def LOGIC : String := "logic"

def OUTPUT : String := "output"

end NodeType

/-! The `DataType` string-literal union (`nodeTemplates.ts`). -/

namespace DataType

def TEXT : String := "text"

def EMBEDDINGS : String := "embeddings"

def JSON : String := "json"

def PDF : String := "pdf"

def CHUNKS : String := "chunks"

def BOOLEAN : String := "boolean"

def NUMBER : String := "number"

end DataType

/-- A value stored in a node `config` object.  `num` and `json` carry the
printed form produced by JS string interpolation / `JSON.stringify`. -/
inductive ConfigVal where
  | str (v : String)
  | num (printed : String)
  | bool (v : Bool)
  | json (printed : String)
deriving DecidableEq, Repr

/-- `NodePort` (`nodeTemplates.ts`): a typed input or output slot. -/
structure Port where
  id : String
  label : String
  dataType : String
  required : Bool
deriving DecidableEq, Repr

/-- React-Flow canvas position; never observed by the compiler. -/
structure Pos where
  x : Int
  y : Int
deriving DecidableEq, Repr

/-- `PipelineNodeData` (`nodeTemplates.ts`), as built by `buildPipeline`. -/
structure PipelineNodeData where
  id : String
  type : String
  label : String
  description : String
  icon : String
  inputs : List Port
  outputs : List Port
  config : List (String × ConfigVal)
  position : Pos
deriving DecidableEq, Repr

/-- `PipelineNode`: React-Flow node with the data payload above. -/
structure PipelineNode where
  id : String
  type : String
  position : Pos
  data : PipelineNodeData
deriving DecidableEq, Repr

/-- `PipelineEdge`: React-Flow edge plus the fields `buildPipeline` adds.
`sourceHandle`/`targetHandle` may be absent (`null`/`undefined`). -/
structure PipelineEdge where
  id : String
  source : String
  target : String
  sourceHandle : Option String
  targetHandle : Option String
  sourcePort : String
  targetPort : String
  dataType : String
  validated : Bool
deriving DecidableEq, Repr

/-- `Pipeline` (`nodeTemplates.ts`), restricted to the fields the compiler
reads (`id`, `createdAt`, `updatedAt`, `isValid`, `validationErrors` are
written by `buildPipeline` but never read by compilation). -/
structure Pipeline where
  name : String
  description : String
  version : String
  nodes : List PipelineNode
  edges : List PipelineEdge
deriving DecidableEq, Repr

/-- `GeneratedCode` (`nodeTemplates.ts`): result of `generate`. -/
structure GeneratedCode where
  success : Bool
  kotlinCode : Option String := none
  buildGradle : Option String := none
  errors : List String
  warnings : List String
deriving DecidableEq, Repr

/-! ## Raw React-Flow input and `buildPipeline` -/

/-- The fields of a raw React-Flow node's `data` bag that `buildPipeline`
reads, each possibly absent. -/
structure RawNodeData where
  type : Option String := none
  label : Option String := none
  description : Option String := none
  icon : Option String := none
  inputs : Option (List Port) := none
  outputs : Option (List Port) := none
  config : Option (List (String × ConfigVal)) := none
deriving DecidableEq, Repr

/-- A raw React-Flow `Node` as received by the `CodeGenerator` constructor. -/
structure RawNode where
  id : String
  position : Pos
  data : Option RawNodeData := none
deriving DecidableEq, Repr

/-- A raw React-Flow `Edge` as received by the `CodeGenerator` constructor. -/
structure RawEdge where
  id : String
  source : String
  target : String
  sourceHandle : Option String := none
  targetHandle : Option String := none
deriving DecidableEq, Repr

/-- `CodeGenerator.inferDataType`: the source port's declared type, defaulting
to `DataType.TEXT`. -/
def inferDataType (edge : RawEdge) (nodes : List PipelineNode) : String :=
  let sourceNode := nodes.find? (fun n => n.id == edge.source)
  let sourcePort :=
    sourceNode.bind (fun n => n.data.outputs.find? (fun p => some p.id == edge.sourceHandle))
  jsOr (sourcePort.map Port.dataType) DataType.TEXT

/-- `CodeGenerator.buildPipeline`: normalize raw React-Flow nodes/edges into a
`Pipeline`, filling every absent field with its default. -/
def buildPipeline (nodes : List RawNode) (edges : List RawEdge) (name : String) : Pipeline :=
  let pipelineNodes : List PipelineNode := nodes.map (fun node =>
    { id := node.id
      type := jsOr (node.data.bind RawNodeData.type) NodeType.PROCESSING
      position := node.position
      data :=
        { id := node.id
          type := jsOr (node.data.bind RawNodeData.type) NodeType.PROCESSING
          label := jsOr (node.data.bind RawNodeData.label) "Unknown Node"
          description := jsOr (node.data.bind RawNodeData.description) ""
          icon := jsOr (node.data.bind RawNodeData.icon) "Circle"
          inputs := ((node.data.bind RawNodeData.inputs)).getD []
          outputs := ((node.data.bind RawNodeData.outputs)).getD []
          config := ((node.data.bind RawNodeData.config)).getD []
          position := node.position } })
  let pipelineEdges : List PipelineEdge := edges.map (fun edge =>
    { id := edge.id
      source := edge.source
      target := edge.target
      sourceHandle := edge.sourceHandle
      targetHandle := edge.targetHandle
      sourcePort := jsOr edge.sourceHandle "output"
      targetPort := jsOr edge.targetHandle "input"
      dataType := inferDataType edge pipelineNodes
      validated := true })
  { name := name
    description := "Generated pipeline with " ++ toString nodes.length ++ " nodes and "
      ++ toString edges.length ++ " connections"
    version := "1.0.0"
    nodes := pipelineNodes
    edges := pipelineEdges }

/-! ## Validator -/

/-- `CodeGenerator.isDataTypeCompatible`'s `compatibilityRules` table; an
unknown key yields `[]` (the TS `undefined?.includes(..) || false`). -/
def compatibilityRules (sourceType : String) : List String :=
  if sourceType = DataType.PDF then [DataType.TEXT]
  else if sourceType = DataType.TEXT then [DataType.CHUNKS]
  else if sourceType = DataType.CHUNKS then [DataType.EMBEDDINGS, DataType.TEXT]
  else if sourceType = DataType.EMBEDDINGS then []
  else if sourceType = DataType.JSON then [DataType.TEXT]
  else if sourceType = DataType.BOOLEAN then [DataType.TEXT]
  else if sourceType = DataType.NUMBER then [DataType.TEXT]
  else []

/-- `CodeGenerator.isDataTypeCompatible`. -/
def isDataTypeCompatible (sourceType targetType : String) : Bool :=
  sourceType == targetType || (compatibilityRules sourceType).contains targetType

/-- The diagnostic `'Pipeline must have at least one input node'`. -/
def missingInputMsg : String := "Pipeline must have at least one input node"

/-- The diagnostic `'Pipeline must have at least one output node'`. -/
def missingOutputMsg : String := "Pipeline must have at least one output node"

/-- The diagnostic for an edge whose node ids do not resolve. -/
def invalidConnMsg (edge : PipelineEdge) : String :=
  "Invalid connection: " ++ edge.source ++ " -> " ++ edge.target

/-- The diagnostic for an edge with incompatible port data types. -/
def incompatMsg (srcType tgtType srcLabel tgtLabel : String) : String :=
  "Incompatible data types: " ++ srcType ++ " -> " ++ tgtType ++ " ("
    ++ srcLabel ++ " -> " ++ tgtLabel ++ ")"

/-- The body of `validatePipeline`'s per-edge loop: the errors pushed while
handling one edge. -/
def edgeErrors (p : Pipeline) (edge : PipelineEdge) : List String :=
  match p.nodes.find? (fun n => n.id == edge.source),
        p.nodes.find? (fun n => n.id == edge.target) with
  | some sourceNode, some targetNode =>
    match sourceNode.data.outputs.find? (fun q => some q.id == edge.sourceHandle),
          targetNode.data.inputs.find? (fun q => some q.id == edge.targetHandle) with
    | some sourcePort, some targetPort =>
      if isDataTypeCompatible sourcePort.dataType targetPort.dataType then []
      else [incompatMsg sourcePort.dataType targetPort.dataType
              sourceNode.data.label targetNode.data.label]
    | _, _ => []
  | _, _ => [invalidConnMsg edge]

/-- `CodeGenerator.validatePipeline`: input/output presence checks followed by
the per-edge checks, in push order. -/
def validatePipeline (p : Pipeline) : List String :=
  (if (p.nodes.filter (fun n => n.data.type == NodeType.INPUT)).length = 0
    then [missingInputMsg] else [])
  ++ (if (p.nodes.filter (fun n => n.data.type == NodeType.OUTPUT)).length = 0
    then [missingOutputMsg] else [])
  ++ p.edges.flatMap (edgeErrors p)

/-! ## Scheduler (`CodeGenerator.topologicalSort`) -/

/-- The dependencies the DFS visits before a node: sources of edges whose
target is `nodeId`. -/
def sortDeps (edges : List PipelineEdge) (nodeId : String) : List String :=
  (edges.filter (fun e => e.target == nodeId)).map PipelineEdge.source

/-- The mutable state of `topologicalSort`: the `visiting` and `visited` sets
and the `result` list. -/
structure SortState where
  visiting : Finset String
  visited : Finset String
  result : List String

/-- The dependency loop inside `visit`: run `f` on each dependency, stopping
on the first failure (`false` = cycle reported, `none` = out of fuel). -/
def runDeps (f : SortState → String → Option (Bool × SortState)) :
    SortState → List String → Option (Bool × SortState)
  | s, [] => some (true, s)
  | s, d :: ds =>
    match f s d with
    | none => none
    | some (false, s') => some (false, s')
    | some (true, s') => runDeps f s' ds

/-- The recursive `visit` closure of `topologicalSort`, with explicit fuel
bounding the recursion depth (`none` = fuel exhausted, which
`visit_isSome_of_fuel` rules out for the fuel used by `topologicalSort`). -/
def visit (edges : List PipelineEdge) : Nat → SortState → String → Option (Bool × SortState)
  | 0, _, _ => none
  | fuel + 1, s, nodeId =>
    if nodeId ∈ s.visiting then some (false, s)
    else if nodeId ∈ s.visited then some (true, s)
    else
      match runDeps (visit edges fuel)
          { s with visiting := insert nodeId s.visiting } (sortDeps edges nodeId) with
      | none => none
      | some (false, s') => some (false, s')
      | some (true, s') =>
        some (true,
          { visiting := s'.visiting.erase nodeId
            visited := insert nodeId s'.visited
            result := s'.result ++ [nodeId] })

/-- The outer loop of `topologicalSort`: visit every declared node, aborting
with `none` (the TS `null`) when a cycle is reported. -/
def sortNodes (edges : List PipelineEdge) (fuel : Nat) :
    SortState → List String → Option SortState
  | s, [] => some s
  | s, v :: vs =>
    match visit edges fuel s v with
    | none => none
    | some (false, _) => none
    | some (true, s') => sortNodes edges fuel s' vs

/-- Fuel that `visit_isSome_of_fuel` proves sufficient for every DFS run
started by `topologicalSort`. -/
def sortFuel (p : Pipeline) : Nat := p.nodes.length + p.edges.length + 1

/-- `CodeGenerator.topologicalSort`: `none` is the TypeScript `null`
(circular dependency detected). -/
def topologicalSort (p : Pipeline) : Option (List String) :=
  (sortNodes p.edges (sortFuel p) ⟨∅, ∅, []⟩ (p.nodes.map PipelineNode.id)).map
    SortState.result

/-! ## Emitter -/

/-- Character-list prefix test (JS `String.prototype.startsWith` on code
units, used only to build the substring test below). -/
def chStartsWith : List Char → List Char → Bool
  | [], _ => true
  | _ :: _, [] => false
  | a :: as, b :: bs => a == b && chStartsWith as bs

/-- Character-list substring test. -/
def chContainsSub : List Char → List Char → Bool
  | sub, [] => sub.isEmpty
  | sub, b :: bs => chStartsWith sub (b :: bs) || chContainsSub sub bs

/-- JS `s.includes(sub)`. -/
def strIncludes (s sub : String) : Bool := chContainsSub sub.data s.data

/-- JS `s.toLowerCase()` (ASCII letters, the only ones the generator's
label probes contain). -/
def strToLower (s : String) : String := String.mk (s.data.map Char.toLower)

/-- JS `s.replace(/[^a-zA-Z0-9]/g, '_')` as used for method names. -/
def sanitizeId (s : String) : String :=
  String.mk (s.data.map (fun c => if c.isAlphanum then c else '_'))

/-- `CodeGenerator.addRequiredImports`: the fixed import set. -/
def requiredImports : List String :=
  ["import android.app.Application", "import com.google.ai.edge.gallery.rag.RagPipeline"]

/-- One entry of `CodeGenerator.formatConfigMap`. -/
def formatConfigEntry : String × ConfigVal → String
  | (key, ConfigVal.str v) => "\"" ++ key ++ "\" to \"" ++ v ++ "\""
  | (key, ConfigVal.num printed) => "\"" ++ key ++ "\" to " ++ printed
  | (key, ConfigVal.bool v) => "\"" ++ key ++ "\" to " ++ (cond v "true" "false")
  | (key, ConfigVal.json printed) => "\"" ++ key ++ "\" to \"" ++ printed ++ "\""

/-- `CodeGenerator.formatConfigMap`. -/
def formatConfigMap (config : List (String × ConfigVal)) : String :=
  String.intercalate ", " (config.map formatConfigEntry)

/-- `CodeGenerator.generateNodeConfigurations`. -/
def generateNodeConfigurations (p : Pipeline) : String :=
  String.intercalate "\n" (p.nodes.map (fun node =>
    "        nodeConfigs[\"" ++ node.id ++ "\"] = mapOf("
      ++ formatConfigMap node.data.config ++ ")"))

/-- `CodeGenerator.generateInputNodeLogic`. -/
def generateInputNodeLogic (node : PipelineNode) : String :=
  if strIncludes (strToLower node.data.label) "pdf" then
    "            // PDF Input Node\n            val pdfResult = nodeOutputs[\"pdf\"] ?: throw IllegalArgumentException(\"PDF input required\")"
  else if strIncludes (strToLower node.data.label) "text" then
    "            // Text Input Node\n            val textResult = nodeOutputs[\"text\"] ?: config[\"defaultText\"] ?: \"\""
  else
    "            // Generic Input Node\n            val inputResult = nodeOutputs[\"data\"] ?: \"\""

/-- `CodeGenerator.generateProcessingNodeLogic`. -/
def generateProcessingNodeLogic (node : PipelineNode) : String :=
  if strIncludes (strToLower node.data.label) "chunker" then
    "            // Text Chunker Node\n            val inputText = input as? String ?: \"\"\n            val chunkSize = config[\"chunkSize\"] as? Int ?: 512\n            val overlap = config[\"overlap\"] as? Int ?: 64\n            \n            val chunksResult = ragPipeline.chunkText(inputText, chunkSize, overlap)"
  else if strIncludes (strToLower node.data.label) "embedding" then
    "            // Embedding Generator Node\n            val inputChunks = chunks as? List<String> ?: emptyList()\n            val embeddingsResult = ragPipeline.generateEmbeddings(inputChunks)"
  else if strIncludes (strToLower node.data.label) "extractor" then
    "            // PDF Text Extractor Node\n            val pdfUri = pdf as? String ?: \"\"\n            val textResult = ragPipeline.extractTextFromPdf(pdfUri)"
  else
    "            // Generic Processing Node\n            val processedResult = input"

/-- `CodeGenerator.generateRetrievalNodeLogic`. -/
def generateRetrievalNodeLogic (node : PipelineNode) : String :=
  if strIncludes (strToLower node.data.label) "search" then
    "            // Similarity Search Node\n            val queryText = query as? String ?: \"\"\n            val topK = config[\"topK\"] as? Int ?: 3\n            val threshold = config[\"threshold\"] as? Double ?: 0.0\n            \n            val resultsResult = ragPipeline.searchSimilar(queryText, topK, threshold)"
  else if strIncludes (strToLower node.data.label) "vector" then
    "            // Vector Store Node\n            val inputEmbeddings = embeddings as? List<FloatArray> ?: emptyList()\n            val storedResult = ragPipeline.storeEmbeddings(inputEmbeddings)"
  else
    "            // Generic Retrieval Node\n            val retrievalResult = input"

/-- `CodeGenerator.generateLlmNodeLogic` (reads the pipeline's edges to pick
between a bound input symbol and a config default). -/
def generateLlmNodeLogic (p : Pipeline) (node : PipelineNode) : String :=
  if strIncludes (strToLower node.data.label) "gemma" then
    let inputConnections := p.edges.filter (fun e => e.target == node.id)
    let promptInput := inputConnections.find? (fun e => e.targetHandle == some "prompt")
    let contextInput := inputConnections.find? (fun e => e.targetHandle == some "context")
    "            // Gemma LLM Node\n            val inputPrompt = "
      ++ (if promptInput.isSome then "prompt as? String ?: \"\""
          else "config[\"defaultPrompt\"] as? String ?: \"\"")
      ++ "\n            val contextChunks = "
      ++ (if contextInput.isSome then "context as? List<String> ?: emptyList()"
          else "emptyList<String>()")
      ++ "\n            val temperature = config[\"temperature\"] as? Double ?: 0.8\n            val maxTokens = config[\"maxTokens\"] as? Int ?: 150\n            \n            val responseResult = ragPipeline.generateResponse(inputPrompt, contextChunks, temperature, maxTokens)"
  else if strIncludes (strToLower node.data.label) "prompt" then
    let inputConnections := p.edges.filter (fun e => e.target == node.id)
    let queryInput := inputConnections.find? (fun e => e.targetHandle == some "query")
    let contextInput := inputConnections.find? (fun e => e.targetHandle == some "context")
    "            // Prompt Builder Node\n            val userQuery = "
      ++ (if queryInput.isSome then "query as? String ?: \"\""
          else "config[\"defaultQuery\"] as? String ?: \"\"")
      ++ "\n            val contextChunks = "
      ++ (if contextInput.isSome then "context as? List<String> ?: emptyList()"
          else "emptyList<String>()")
      ++ "\n            val template = config[\"template\"] as? String ?: \"default\"\n            \n            val promptResult = ragPipeline.buildPrompt(userQuery, contextChunks, template)"
  else
    "            // Generic LLM Node\n            val llmResult = nodeOutputs[\"input\"] ?: \"\""

/-- `CodeGenerator.generateLogicNodeLogic`. -/
def generateLogicNodeLogic (node : PipelineNode) : String :=
  if strIncludes (strToLower node.data.label) "if" then
    "            // If/Then Logic Node\n            val inputValue = input as? String ?: \"\"\n            val condition = config[\"condition\"] as? String ?: \"contains\"\n            val checkValue = config[\"value\"] as? String ?: \"\"\n            \n            val conditionResult = when (condition) \x7b\n                \"contains\" -> inputValue.contains(checkValue)\n                \"equals\" -> inputValue == checkValue\n                \"startsWith\" -> inputValue.startsWith(checkValue)\n                \"endsWith\" -> inputValue.endsWith(checkValue)\n                else -> false\n            \x7d\n            \n            val trueResult = if (conditionResult) inputValue else null\n            val falseResult = if (!conditionResult) inputValue else null"
  else
    "            // Generic Logic Node\n            val logicResult = input"

/-- `CodeGenerator.generateOutputNodeLogic`. -/
def generateOutputNodeLogic (p : Pipeline) (node : PipelineNode) : String :=
  let inputConnections := p.edges.filter (fun e => e.target == node.id)
  match inputConnections.head? with
  | some primaryInput =>
    "            // Output Node\n            val outputResult = "
      ++ jsOr primaryInput.targetHandle "input" ++ " ?: \"\""
  | none =>
    "            // Output Node\n            val outputResult = nodeOutputs[\"input\"] ?: \"\""

/-- The comment body emitted by the `default` arm of
`CodeGenerator.generateNodeLogic` for a node category with no strategy. -/
def unknownNodeTypeMsg : String := "            // Unknown node type"

/-- `CodeGenerator.generateNodeLogic`: dispatch on `node.data.type`. -/
def generateNodeLogic (p : Pipeline) (node : PipelineNode) : String :=
  if node.data.type = NodeType.INPUT then generateInputNodeLogic node
  else if node.data.type = NodeType.PROCESSING then generateProcessingNodeLogic node
  else if node.data.type = NodeType.RETRIEVAL then generateRetrievalNodeLogic node
  else if node.data.type = NodeType.LLM then generateLlmNodeLogic p node
  else if node.data.type = NodeType.LOGIC then generateLogicNodeLogic node
  else if node.data.type = NodeType.OUTPUT then generateOutputNodeLogic p node
  else unknownNodeTypeMsg

/-- `CodeGenerator.generateNodeMethod`. -/
def generateNodeMethod (p : Pipeline) (node : PipelineNode) : String :=
  let methodName := "executeNode_" ++ sanitizeId node.id
  let inputConnections := p.edges.filter (fun e => e.target == node.id)
  let inputMappings := String.intercalate "\n" (inputConnections.map (fun edge =>
    "        val " ++ jsOr edge.targetHandle "input" ++ " = nodeOutputs[\""
      ++ edge.source ++ "_" ++ jsOr edge.sourceHandle "output" ++ "\"]"))
  let outputAssignments := String.intercalate "\n" (node.data.outputs.map (fun output =>
    "        nodeOutputs[\"" ++ node.id ++ "_" ++ output.id ++ "\"] = "
      ++ output.id ++ "Result"))
  "    /**\n     * Execute " ++ node.data.label ++ "\n     * " ++ node.data.description
    ++ "\n     */\n    private fun " ++ methodName
    ++ "() \x7b\n        try \x7b\n            val config = nodeConfigs[\"" ++ node.id
    ++ "\"] ?: emptyMap()\n            \n            // Get inputs from connected nodes\n"
    ++ inputMappings
    ++ "\n            \n            // Execute node logic\n"
    ++ generateNodeLogic p node
    ++ "\n            \n            // Store outputs\n"
    ++ outputAssignments
    ++ "\n            \n        \x7d catch (e: Exception) \x7b\n            throw RuntimeException(\"Node \x27"
    ++ node.data.label
    ++ "\x27 execution failed: $\x7be.message\x7d\", e)\n        \x7d\n    \x7d"

/-- The message of the `TypeError` raised by the non-null assertion
`this.pipeline.nodes.find(...)!` when an execution-order id is undeclared. -/
def undefinedNodeMsg : String := "Cannot read properties of undefined (reading \x27data\x27)"

/-- `CodeGenerator.generateClassBody`; `none` models the thrown `TypeError`. -/
def generateClassBody (p : Pipeline) (executionOrder : List String) : Option String :=
  (executionOrder.mapM (fun nodeId =>
    (p.nodes.find? (fun n => n.id == nodeId)).map (generateNodeMethod p))).map
    (String.intercalate "\n\n")

/-- `CodeGenerator.generateExecutionSequence`; `none` models the thrown
`TypeError`. -/
def generateExecutionSequence (p : Pipeline) (executionOrder : List String) : Option String :=
  (executionOrder.mapM (fun nodeId =>
    (p.nodes.find? (fun n => n.id == nodeId)).map (fun node =>
      "            // Execute: " ++ node.data.label ++ "\n            executeNode_"
        ++ sanitizeId nodeId ++ "()"))).map
    (String.intercalate "\n\n")

/-- `CodeGenerator.generateOutputExtraction`. -/
def generateOutputExtraction (p : Pipeline) : String :=
  let outputNodes := p.nodes.filter (fun n => n.data.type == NodeType.OUTPUT)
  String.intercalate "\n" (outputNodes.map (fun node =>
    "        finalOutputs[\"" ++ node.data.label ++ "\"] = nodeOutputs[\"" ++ node.id
      ++ "_" ++ jsOr (node.data.outputs.head?.map Port.id) "output" ++ "\"] ?: \"\""))

/-- Everything `generateKotlinCode` emits before the generation timestamp. -/
def kotlinPrefix (p : Pipeline) : String :=
  "package com.google.ai.edge.gallery.rag.generated\n\n"
    ++ String.intercalate "\n" requiredImports
    ++ "\n\n/**\n * Generated RAG Pipeline: " ++ p.name
    ++ "\n * Nodes: " ++ toString p.nodes.length
    ++ "\n * Edges: " ++ toString p.edges.length
    ++ "\n * Generated at: "

/-- Everything `generateKotlinCode` emits after the generation timestamp. -/
def kotlinBody (p : Pipeline) (classBody executionSequence : String) : String :=
  "\n */\nclass GeneratedRagPipeline private constructor(private val application: Application) \x7b\n    \n    companion object \x7b\n        @Volatile\n        private var INSTANCE: GeneratedRagPipeline? = null\n        \n        fun getInstance(application: Application): GeneratedRagPipeline \x7b\n            return INSTANCE ?: synchronized(this) \x7b\n                INSTANCE ?: GeneratedRagPipeline(application).also \x7b INSTANCE = it \x7d\n            \x7d\n        \x7d\n    \x7d\n    \n    // Node execution variables\n    private val nodeOutputs = mutableMapOf<String, Any>()\n    private val nodeConfigs = mutableMapOf<String, Map<String, Any>>()\n    \n    // RAG Components\n    private lateinit var ragPipeline: RagPipeline\n    \n    init \x7b\n        initializeComponents()\n        setupNodeConfigurations()\n    \x7d\n    \n    private fun initializeComponents() \x7b\n        // Initialize RAG components\n        ragPipeline = RagPipeline.getInstance(application)\n    \x7d\n    \n    private fun setupNodeConfigurations() \x7b\n"
    ++ generateNodeConfigurations p
    ++ "\n    \x7d\n    \n"
    ++ classBody
    ++ "\n    \n    /**\n     * Execute the complete pipeline\n     */\n    fun executePipeline(input: Map<String, Any>): Map<String, Any> \x7b\n        try \x7b\n            // Clear previous outputs\n            nodeOutputs.clear()\n            \n            // Set initial inputs\n            input.forEach \x7b (key, value) ->\n                nodeOutputs[key] = value\n            \x7d\n            \n            // Execute nodes in topological order\n"
    ++ executionSequence
    ++ "\n            \n            // Return final outputs\n            return extractFinalOutputs()\n            \n        \x7d catch (e: Exception) \x7b\n            throw RuntimeException(\"Pipeline execution failed: $\x7be.message\x7d\", e)\n        \x7d\n    \x7d\n    \n    private fun extractFinalOutputs(): Map<String, Any> \x7b\n        val finalOutputs = mutableMapOf<String, Any>()\n        \n        // Extract outputs from output nodes\n"
    ++ generateOutputExtraction p
    ++ "\n        \n        return finalOutputs\n    \x7d\n\x7d"

/-- `CodeGenerator.generateKotlinCode`; `Except.error` models the `TypeError`
thrown by a failed non-null node lookup, caught by `generate`. -/
def generateKotlinCode (p : Pipeline) (executionOrder : List String) (now : String) :
    Except String String :=
  match generateClassBody p executionOrder, generateExecutionSequence p executionOrder with
  | some classBody, some executionSequence =>
    Except.ok (kotlinPrefix p ++ now ++ kotlinBody p classBody executionSequence)
  | _, _ => Except.error undefinedNodeMsg

/-- `CodeGenerator.generateBuildGradle`: a constant manifest. -/
def generateBuildGradle : String :=
  "dependencies \x7b\n    implementation(\"com.google.ai.edge:local-agents-rag:1.0.0\")\n    implementation(\"androidx.lifecycle:lifecycle-viewmodel-ktx:2.7.0\")\n\x7d"

/-- The complexity warning of `CodeGenerator.getWarnings`. -/
def complexityMsg : String :=
  "Pipeline has many processing nodes - consider optimizing for performance"

/-- The empty-config warning of `CodeGenerator.getWarnings`. -/
def emptyCfgMsg (label : String) : String :=
  "Node \x27" ++ label ++ "\x27 has no configuration - using defaults"

/-- `CodeGenerator.getWarnings`. -/
def getWarnings (p : Pipeline) : List String :=
  (if 10 < (p.nodes.filter (fun n => n.data.type == NodeType.PROCESSING)).length
    then [complexityMsg] else [])
  ++ p.nodes.flatMap (fun node =>
    if node.data.config.length = 0 then [emptyCfgMsg node.data.label] else [])

/-- The error `generate` reports when `topologicalSort` returns `null`. -/
def circularMsg : String := "Pipeline contains circular dependencies"

/-- `CodeGenerator.generate`: validate, schedule, emit; the `catch` branch
wraps an emission `TypeError` into an error result. -/
def generate (p : Pipeline) (now : String) : GeneratedCode :=
  let validationErrors := validatePipeline p
  if 0 < validationErrors.length then
    { success := false, errors := validationErrors, warnings := [] }
  else
    match topologicalSort p with
    | none => { success := false, errors := [circularMsg], warnings := [] }
    | some executionOrder =>
      match generateKotlinCode p executionOrder now with
      | Except.error msg =>
        { success := false, errors := ["Code generation failed: " ++ msg], warnings := [] }
      | Except.ok kotlinCode =>
        { success := true, kotlinCode := some kotlinCode
          buildGradle := some generateBuildGradle, errors := [], warnings := getWarnings p }

/-- The convenience entry point `generateCodeFromPipeline(nodes, edges, name?)`. -/
def generateCodeFromPipeline (nodes : List RawNode) (edges : List RawEdge)
    (pipelineName : Option String) (now : String) : GeneratedCode :=
  generate (buildPipeline nodes edges (pipelineName.getD "Generated Pipeline")) now

/-! ## Concrete pipelines used as witnesses and counterexamples -/

/-- A port whose label is its id, as in the palette templates. -/
def mkPort (id dataType : String) : Port :=
  { id := id, label := id, dataType := dataType, required := true }

/-- A node with empty config at the origin, as `buildPipeline` would build it. -/
def mkNode (id type label : String) (inputs outputs : List Port) : PipelineNode :=
  { id := id, type := type, position := ⟨0, 0⟩
    data := { id := id, type := type, label := label, description := "", icon := "Circle"
              inputs := inputs, outputs := outputs, config := [], position := ⟨0, 0⟩ } }

/-- An edge with the derived fields `buildPipeline` would attach. -/
def mkEdge (id source target : String) (sourceHandle targetHandle : Option String) :
    PipelineEdge :=
  { id := id, source := source, target := target, sourceHandle := sourceHandle
    targetHandle := targetHandle, sourcePort := jsOr sourceHandle "output"
    targetPort := jsOr targetHandle "input", dataType := DataType.TEXT, validated := true }

/-- A well-formed two-node pipeline: Text Input feeding Text Output. -/
def simplePipeline : Pipeline :=
  { name := "Simple", description := "", version := "1.0.0"
    nodes := [mkNode "in1" NodeType.INPUT "Text Input" [] [mkPort "text" DataType.TEXT],
              mkNode "out1" NodeType.OUTPUT "Text Output" [mkPort "text" DataType.TEXT] []]
    edges := [mkEdge "e1" "in1" "out1" (some "text") (some "text")] }

/-- Like `simplePipeline` but the edge carries incompatible port types
(`text` feeding a `pdf` input). -/
def badTypesPipeline : Pipeline :=
  { name := "BadTypes", description := "", version := "1.0.0"
    nodes := [mkNode "in1" NodeType.INPUT "Text Input" [] [mkPort "text" DataType.TEXT],
              mkNode "out1" NodeType.OUTPUT "PDF Output" [mkPort "pdf" DataType.PDF] []]
    edges := [mkEdge "e1" "in1" "out1" (some "text") (some "pdf")] }

/-- Like `simplePipeline` but the edge's source port id `bogus` does not
exist on the source node: a dangling port reference. -/
def danglingPortPipeline : Pipeline :=
  { name := "DanglingPort", description := "", version := "1.0.0"
    nodes := [mkNode "in1" NodeType.INPUT "Text Input" [] [mkPort "text" DataType.TEXT],
              mkNode "out1" NodeType.OUTPUT "Text Output" [mkPort "text" DataType.TEXT] []]
    edges := [mkEdge "e1" "in1" "out1" (some "bogus") (some "text")] }

/-- One declared node, plus a two-edge cycle between two node ids (`X`, `Y`)
that are not declared in the pipeline. -/
def danglingNodePipeline : Pipeline :=
  { name := "DanglingNodes", description := "", version := "1.0.0"
    nodes := [mkNode "A" NodeType.PROCESSING "Node A" [] []]
    edges := [mkEdge "eXY" "X" "Y" none none, mkEdge "eYX" "Y" "X" none none] }

/-- A pipeline that passes validation but whose two declared nodes form a
dependency cycle (the reverse edge's port ids do not resolve, so the type
check skips it). -/
def cyclePipeline : Pipeline :=
  { name := "Cycle", description := "", version := "1.0.0"
    nodes := [mkNode "in1" NodeType.INPUT "Text Input" [] [mkPort "text" DataType.TEXT],
              mkNode "out1" NodeType.OUTPUT "Text Output" [mkPort "text" DataType.TEXT] []]
    edges := [mkEdge "e1" "in1" "out1" (some "text") (some "text"),
              mkEdge "e2" "out1" "in1" (some "back") (some "back")] }

/-- Declaration order `A`, `B`, `C` with a single edge `C -> A`: `B` and `C`
have no ordering constraint, yet the DFS emits `C` before `B`. -/
def tiebreakPipeline : Pipeline :=
  { name := "Tiebreak", description := "", version := "1.0.0"
    nodes := [mkNode "A" NodeType.PROCESSING "Node A" [] [],
              mkNode "B" NodeType.PROCESSING "Node B" [] [],
              mkNode "C" NodeType.PROCESSING "Node C" [] []]
    edges := [mkEdge "e1" "C" "A" none none] }

/-- Two declared nodes and no edges at all. -/
def noEdgesPipeline : Pipeline :=
  { name := "NoEdges", description := "", version := "1.0.0"
    nodes := [mkNode "in1" NodeType.INPUT "Text Input" [] [mkPort "text" DataType.TEXT],
              mkNode "out1" NodeType.OUTPUT "Text Output" [mkPort "text" DataType.TEXT] []]
    edges := [] }

/-- The node whose category string is none of the six registered ones. -/
def mysteryNode : PipelineNode := mkNode "mystery" "banana" "Mystery" [] []

/-- A pipeline that passes validation and contains `mysteryNode`. -/
def unknownCategoryPipeline : Pipeline :=
  { name := "Unknown", description := "", version := "1.0.0"
    nodes := [mkNode "in1" NodeType.INPUT "Text Input" [] [mkPort "text" DataType.TEXT],
              mysteryNode,
              mkNode "out1" NodeType.OUTPUT "Text Output" [mkPort "text" DataType.TEXT] []]
    edges := [] }

/-- The seven declared data-type tags (`DataType` in `nodeTemplates.ts`). -/
def knownDataTypes : List String :=
  [DataType.TEXT, DataType.EMBEDDINGS, DataType.JSON, DataType.PDF, DataType.CHUNKS,
   DataType.BOOLEAN, DataType.NUMBER]

/-! ## Scheduler metatheory

The edge relation induced by a pipeline, the DFS state invariant, and the
three master lemmas about `visit`: what a successful visit guarantees, that
the fuel chosen by `topologicalSort` cannot run out, and that on an acyclic
graph no visit ever reports a cycle. -/

/-- `erel edges a b`: some edge goes from node id `a` to node id `b`. -/
def erel (edges : List PipelineEdge) (a b : String) : Prop :=
  ∃ e ∈ edges, e.source = a ∧ e.target = b

/-- `erelSrc edges x`: `x` is the source of some edge. -/
def erelSrc (edges : List PipelineEdge) (x : String) : Prop :=
  ∃ e ∈ edges, e.source = x

/-- Invariant maintained by the DFS on its `result`/`visited` state:
the result is duplicate-free, lists exactly the visited set, and already
orders every dependency before its dependent. -/
structure SortInv (edges : List PipelineEdge) (s : SortState) : Prop where
  nodup : s.result.Nodup
  mem_iff : ∀ x, x ∈ s.result ↔ x ∈ s.visited
  sorted : ∀ v ∈ s.result, ∀ d ∈ sortDeps edges v, List.Sublist [d, v] s.result

/-- What a `visit` call that returns `true` guarantees. -/
structure VisitPost (edges : List PipelineEdge) (s : SortState) (v : String)
    (s' : SortState) : Prop where
  inv : SortInv edges s'
  visiting_eq : s'.visiting = s.visiting
  visited_mono : s.visited ⊆ s'.visited
  mem_visited : v ∈ s'.visited
  result_ext : ∃ t, s'.result = s.result ++ t
  new_visited : ∀ x ∈ s'.visited,
    x ∈ s.visited ∨ (x ∉ s.visiting ∧ (x = v ∨ erelSrc edges x))

/-- What a successful dependency loop (`runDeps`) guarantees. -/
structure RunPost (edges : List PipelineEdge) (s : SortState) (ds : List String)
    (s' : SortState) : Prop where
  inv : SortInv edges s'
  visiting_eq : s'.visiting = s.visiting
  visited_mono : s.visited ⊆ s'.visited
  deps_visited : ∀ d ∈ ds, d ∈ s'.visited
  result_ext : ∃ t, s'.result = s.result ++ t
  new_visited : ∀ x ∈ s'.visited,
    x ∈ s.visited ∨ (x ∉ s.visiting ∧ (x ∈ ds ∨ erelSrc edges x))

/-- Success postcondition of the outer loop of `topologicalSort`. -/
structure SortNodesPost (edges : List PipelineEdge) (s : SortState) (vs : List String)
    (s' : SortState) : Prop where
  inv : SortInv edges s'
  visiting_eq : s'.visiting = s.visiting
  visited_mono : s.visited ⊆ s'.visited
  all_visited : ∀ v ∈ vs, v ∈ s'.visited
  new_visited : ∀ x ∈ s'.visited,
    x ∈ s.visited ∨ (x ∉ s.visiting ∧ (x ∈ vs ∨ erelSrc edges x))

/-- The declared node ids of a pipeline, in declaration order. -/
def nodeIds (p : Pipeline) : List String := p.nodes.map PipelineNode.id

theorem mem_sortDeps {edges : List PipelineEdge} {v d : String} :
    d ∈ sortDeps edges v ↔ erel edges d v := by
  simp only [sortDeps, List.mem_map, List.mem_filter, beq_iff_eq, erel]
  constructor
  · rintro ⟨e, ⟨he, ht⟩, rfl⟩
    exact ⟨e, he, rfl, ht⟩
  · rintro ⟨e, he, rfl, ht⟩
    exact ⟨e, ⟨he, ht⟩, rfl⟩

theorem erelSrc_of_mem_sortDeps {edges : List PipelineEdge} {v d : String}
    (h : d ∈ sortDeps edges v) : erelSrc edges d := by
  obtain ⟨e, he, hs, _⟩ := mem_sortDeps.mp h
  exact ⟨e, he, hs⟩




theorem runDeps_ok {edges : List PipelineEdge} {fuel : Nat}
    (hf : ∀ s v s', SortInv edges s → visit edges fuel s v = some (true, s') →
      VisitPost edges s v s') :
    ∀ ds s s', SortInv edges s →
      runDeps (visit edges fuel) s ds = some (true, s') → RunPost edges s ds s' := by
  intro ds
  induction ds with
  | nil =>
    intro s s' hInv h
    simp only [runDeps, Option.some.injEq, Prod.mk.injEq, true_and] at h
    subst h
    exact ⟨hInv, rfl, fun x hx => hx, by simp, ⟨[], by simp⟩, fun x hx => Or.inl hx⟩
  | cons d ds ih =>
    intro s s' hInv h
    simp only [runDeps] at h
    rcases hv : visit edges fuel s d with _ | ⟨b, s₁⟩
    · rw [hv] at h
      exact absurd h (by simp)
    · rw [hv] at h
      cases b
      · exact absurd h (by simp)
      · have hp := hf s d s₁ hInv hv
        have hrest := ih s₁ s' hp.inv h
        refine ⟨hrest.inv, hrest.visiting_eq.trans hp.visiting_eq,
          fun x hx => hrest.visited_mono (hp.visited_mono hx), ?_, ?_, ?_⟩
        · intro d' hd'
          rcases List.mem_cons.mp hd' with rfl | hd'
          · exact hrest.visited_mono hp.mem_visited
          · exact hrest.deps_visited d' hd'
        · obtain ⟨t₁, ht₁⟩ := hp.result_ext
          obtain ⟨t₂, ht₂⟩ := hrest.result_ext
          exact ⟨t₁ ++ t₂, by rw [ht₂, ht₁, List.append_assoc]⟩
        · intro x hx
          rcases hrest.new_visited x hx with hx₁ | ⟨hnv, hx₁⟩
          · rcases hp.new_visited x hx₁ with hx₂ | ⟨hnv, hx₂⟩
            · exact Or.inl hx₂
            · refine Or.inr ⟨hnv, ?_⟩
              rcases hx₂ with rfl | hx₂
              · exact Or.inl (List.mem_cons_self _ _)
              · exact Or.inr hx₂
          · rw [hp.visiting_eq] at hnv
            refine Or.inr ⟨hnv, ?_⟩
            rcases hx₁ with hx₁ | hx₁
            · exact Or.inl (List.mem_cons_of_mem _ hx₁)
            · exact Or.inr hx₁

theorem visit_ok {edges : List PipelineEdge} :
    ∀ fuel s v s', SortInv edges s → visit edges fuel s v = some (true, s') →
      VisitPost edges s v s' := by
  intro fuel
  induction fuel with
  | zero =>
    intro s v s' _ h
    exact absurd h (by simp [visit])
  | succ fuel ih =>
    intro s v s' hInv h
    simp only [visit] at h
    by_cases hvis : v ∈ s.visiting
    · rw [if_pos hvis] at h
      exact absurd h (by simp)
    · rw [if_neg hvis] at h
      by_cases hvtd : v ∈ s.visited
      · rw [if_pos hvtd] at h
        simp only [Option.some.injEq, Prod.mk.injEq, true_and] at h
        subst h
        exact ⟨hInv, rfl, fun x hx => hx, hvtd, ⟨[], by simp⟩, fun x hx => Or.inl hx⟩
      · rw [if_neg hvtd] at h
        rcases hrd : runDeps (visit edges fuel)
            { s with visiting := insert v s.visiting } (sortDeps edges v) with _ | ⟨b, s₂⟩
        · rw [hrd] at h
          exact absurd h (by simp)
        · rw [hrd] at h
          cases b
          · exact absurd h (by simp)
          · simp only [Option.some.injEq, Prod.mk.injEq, true_and] at h
            have hrun := runDeps_ok (fun s v s' hi hv => ih s v s' hi hv)
              (sortDeps edges v) { s with visiting := insert v s.visiting } s₂
              ⟨hInv.nodup, hInv.mem_iff, hInv.sorted⟩ hrd
            -- `v` was not finished by the dependency loop
            have hv₂ : v ∉ s₂.visited := by
              intro hmem
              rcases hrun.new_visited v hmem with hc | ⟨hc, _⟩
              · exact hvtd hc
              · exact hc (Finset.mem_insert_self v s.visiting)
            subst h
            refine ⟨?_, ?_, ?_, ?_, ?_, ?_⟩
            · -- invariant for the new state
              have hnodup : (s₂.result ++ [v]).Nodup := by
                have : v ∉ s₂.result := fun hc => hv₂ ((hrun.inv.mem_iff v).mp hc)
                simp [List.nodup_append, hrun.inv.nodup, this]
              refine ⟨hnodup, ?_, ?_⟩
              · intro x
                simp only [List.mem_append, List.mem_singleton, Finset.mem_insert]
                rw [hrun.inv.mem_iff x]
                tauto
              · intro w hw d hd
                rcases List.mem_append.mp hw with hw | hw
                · exact (hrun.inv.sorted w hw d hd).trans
                    (List.sublist_append_left s₂.result [v])
                · have hwv : w = v := List.mem_singleton.mp hw
                  subst hwv
                  have hdmem : d ∈ s₂.visited := hrun.deps_visited d hd
                  have hdres : d ∈ s₂.result := (hrun.inv.mem_iff d).mpr hdmem
                  have h1 : List.Sublist [d] s₂.result := List.singleton_sublist.mpr hdres
                  exact h1.append (List.Sublist.refl [w])
            · -- visiting is restored
              have := hrun.visiting_eq
              simp only [this]
              exact Finset.erase_insert hvis
            · exact fun x hx => Finset.mem_insert_of_mem (hrun.visited_mono hx)
            · exact Finset.mem_insert_self v _
            · obtain ⟨t, ht⟩ := hrun.result_ext
              exact ⟨t ++ [v], by rw [ht, List.append_assoc]⟩
            · intro x hx
              rcases Finset.mem_insert.mp hx with rfl | hx
              · exact Or.inr ⟨hvis, Or.inl rfl⟩
              · rcases hrun.new_visited x hx with hx₁ | ⟨hnv, hx₁⟩
                · exact Or.inl hx₁
                · refine Or.inr ⟨fun hc => hnv (Finset.mem_insert_of_mem hc), ?_⟩
                  rcases hx₁ with hx₁ | hx₁
                  · exact Or.inr (erelSrc_of_mem_sortDeps hx₁)
                  · exact Or.inr hx₁

theorem runDeps_isSome {edges : List PipelineEdge} {fuel : Nat} (U : Finset String)
    (hf_ne : ∀ s v, SortInv edges s → v ∈ U → (U \ s.visiting).card < fuel →
      visit edges fuel s v ≠ none)
    (hf_ok : ∀ s v s', SortInv edges s → visit edges fuel s v = some (true, s') →
      VisitPost edges s v s') :
    ∀ ds s, SortInv edges s → (∀ d ∈ ds, d ∈ U) → (U \ s.visiting).card < fuel →
      runDeps (visit edges fuel) s ds ≠ none := by
  intro ds
  induction ds with
  | nil =>
    intro s _ _ _
    simp [runDeps]
  | cons d ds ih =>
    intro s hInv hd hcard
    simp only [runDeps]
    rcases hv : visit edges fuel s d with _ | ⟨b, s₁⟩
    · exact absurd hv (hf_ne s d hInv (hd d (List.mem_cons_self d ds)) hcard)
    · cases b
      · simp
      · have hp := hf_ok s d s₁ hInv hv
        have hcard₁ : (U \ s₁.visiting).card < fuel := by
          rw [hp.visiting_eq]
          exact hcard
        exact ih s₁ hp.inv (fun d' hd' => hd d' (List.mem_cons_of_mem d hd')) hcard₁

theorem visit_isSome_of_fuel {edges : List PipelineEdge} (U : Finset String)
    (hU : ∀ e ∈ edges, e.source ∈ U) :
    ∀ fuel s v, SortInv edges s → v ∈ U → (U \ s.visiting).card < fuel →
      visit edges fuel s v ≠ none := by
  intro fuel
  induction fuel with
  | zero =>
    intro s v _ _ hcard
    exact absurd hcard (Nat.not_lt_zero _)
  | succ fuel ih =>
    intro s v hInv hvU hcard
    simp only [visit]
    by_cases hvis : v ∈ s.visiting
    · simp [hvis]
    · rw [if_neg hvis]
      by_cases hvtd : v ∈ s.visited
      · simp [hvtd]
      · rw [if_neg hvtd]
        have hds : ∀ d ∈ sortDeps edges v, d ∈ U := by
          intro d hd
          obtain ⟨e, he, hs⟩ := erelSrc_of_mem_sortDeps hd
          exact hs ▸ hU e he
        have hmem : v ∈ U \ s.visiting := Finset.mem_sdiff.mpr ⟨hvU, hvis⟩
        have hpos : 0 < (U \ s.visiting).card := Finset.card_pos.mpr ⟨v, hmem⟩
        have hcard' : (U \ insert v s.visiting).card < fuel := by
          rw [Finset.sdiff_insert]
          have := Finset.card_erase_of_mem hmem
          omega
        have hrun := runDeps_isSome U (fun s v hi hv hc => ih s v hi hv hc)
          (fun s v s' hi hv => visit_ok fuel s v s' hi hv)
          (sortDeps edges v) { s with visiting := insert v s.visiting }
          ⟨hInv.nodup, hInv.mem_iff, hInv.sorted⟩ hds hcard'
        rcases hrd : runDeps (visit edges fuel)
            { s with visiting := insert v s.visiting } (sortDeps edges v) with _ | ⟨b, s₂⟩
        · exact absurd hrd hrun
        · cases b <;> simp

theorem runDeps_ne_false {edges : List PipelineEdge} {fuel : Nat}
    (hf_ok : ∀ s v s', SortInv edges s → visit edges fuel s v = some (true, s') →
      VisitPost edges s v s')
    (hf_nf : ∀ s v s₂, SortInv edges s →
      (∀ x ∈ s.visiting, Relation.TransGen (erel edges) v x) →
      visit edges fuel s v ≠ some (false, s₂)) :
    ∀ ds s s₂, SortInv edges s →
      (∀ d ∈ ds, ∀ x ∈ s.visiting, Relation.TransGen (erel edges) d x) →
      runDeps (visit edges fuel) s ds ≠ some (false, s₂) := by
  intro ds
  induction ds with
  | nil =>
    intro s s₂ _ _
    simp [runDeps]
  | cons d ds ih =>
    intro s s₂ hInv hchain
    simp only [runDeps]
    rcases hv : visit edges fuel s d with _ | ⟨b, s₁⟩
    · simp
    · cases b
      · exact fun _ => hf_nf s d s₁ hInv (hchain d (List.mem_cons_self d ds)) hv
      · have hp := hf_ok s d s₁ hInv hv
        have hchain₁ : ∀ d' ∈ ds, ∀ x ∈ s₁.visiting, Relation.TransGen (erel edges) d' x := by
          intro d' hd' x hx
          rw [hp.visiting_eq] at hx
          exact hchain d' (List.mem_cons_of_mem d hd') x hx
        exact ih s₁ s₂ hp.inv hchain₁

theorem visit_ne_false {edges : List PipelineEdge}
    (hacyc : ∀ a, ¬ Relation.TransGen (erel edges) a a) :
    ∀ fuel s v s₂, SortInv edges s →
      (∀ x ∈ s.visiting, Relation.TransGen (erel edges) v x) →
      visit edges fuel s v ≠ some (false, s₂) := by
  intro fuel
  induction fuel with
  | zero =>
    intro s v s₂ _ _
    simp [visit]
  | succ fuel ih =>
    intro s v s₂ hInv hchain
    simp only [visit]
    by_cases hvis : v ∈ s.visiting
    · exact absurd (hchain v hvis) (hacyc v)
    · rw [if_neg hvis]
      by_cases hvtd : v ∈ s.visited
      · simp [hvtd]
      · rw [if_neg hvtd]
        have hchain' : ∀ d ∈ sortDeps edges v,
            ∀ x ∈ (insert v s.visiting : Finset String),
              Relation.TransGen (erel edges) d x := by
          intro d hd x hx
          have hdv : erel edges d v := mem_sortDeps.mp hd
          rcases Finset.mem_insert.mp hx with rfl | hx
          · exact Relation.TransGen.single hdv
          · exact Relation.TransGen.head hdv (hchain x hx)
        have hrun := runDeps_ne_false (fun s v s' hi hv => visit_ok fuel s v s' hi hv)
          (fun s v s₂ hi hc hv => ih s v s₂ hi hc hv)
          (sortDeps edges v) { s with visiting := insert v s.visiting }
        rcases hrd : runDeps (visit edges fuel)
            { s with visiting := insert v s.visiting } (sortDeps edges v) with _ | ⟨b, s₂'⟩
        · simp
        · cases b
          · exact absurd hrd (hrun s₂' ⟨hInv.nodup, hInv.mem_iff, hInv.sorted⟩ hchain')
          · simp


theorem sortNodes_ok {edges : List PipelineEdge} {fuel : Nat} :
    ∀ vs s s', SortInv edges s → sortNodes edges fuel s vs = some s' →
      SortNodesPost edges s vs s' := by
  intro vs
  induction vs with
  | nil =>
    intro s s' hInv h
    simp only [sortNodes, Option.some.injEq] at h
    subst h
    exact ⟨hInv, rfl, fun x hx => hx, by simp, fun x hx => Or.inl hx⟩
  | cons v vs ih =>
    intro s s' hInv h
    simp only [sortNodes] at h
    rcases hv : visit edges fuel s v with _ | ⟨b, s₁⟩
    · rw [hv] at h
      exact absurd h (by simp)
    · rw [hv] at h
      cases b
      · exact absurd h (by simp)
      · have hp := visit_ok fuel s v s₁ hInv hv
        have hrest := ih s₁ s' hp.inv h
        refine ⟨hrest.inv, hrest.visiting_eq.trans hp.visiting_eq,
          fun x hx => hrest.visited_mono (hp.visited_mono hx), ?_, ?_⟩
        · intro v' hv'
          rcases List.mem_cons.mp hv' with rfl | hv'
          · exact hrest.visited_mono hp.mem_visited
          · exact hrest.all_visited v' hv'
        · intro x hx
          rcases hrest.new_visited x hx with hx₁ | ⟨hnv, hx₁⟩
          · rcases hp.new_visited x hx₁ with hx₂ | ⟨hnv, hx₂⟩
            · exact Or.inl hx₂
            · refine Or.inr ⟨hnv, ?_⟩
              rcases hx₂ with rfl | hx₂
              · exact Or.inl (List.mem_cons_self _ _)
              · exact Or.inr hx₂
          · rw [hp.visiting_eq] at hnv
            refine Or.inr ⟨hnv, ?_⟩
            rcases hx₁ with hx₁ | hx₁
            · exact Or.inl (List.mem_cons_of_mem _ hx₁)
            · exact Or.inr hx₁

theorem sortNodes_isSome {edges : List PipelineEdge} {fuel : Nat} (U : Finset String)
    (hU : ∀ e ∈ edges, e.source ∈ U)
    (hacyc : ∀ a, ¬ Relation.TransGen (erel edges) a a) :
    ∀ vs s, SortInv edges s → s.visiting = ∅ → (∀ v ∈ vs, v ∈ U) → U.card < fuel →
      sortNodes edges fuel s vs ≠ none := by
  intro vs
  induction vs with
  | nil =>
    intro s _ _ _ _
    simp [sortNodes]
  | cons v vs ih =>
    intro s hInv hvisg hvs hcard
    simp only [sortNodes]
    have hcard₀ : (U \ s.visiting).card < fuel := by
      rw [hvisg, Finset.sdiff_empty]
      exact hcard
    rcases hv : visit edges fuel s v with _ | ⟨b, s₁⟩
    · exact absurd hv
        (visit_isSome_of_fuel U hU fuel s v hInv (hvs v (List.mem_cons_self v vs)) hcard₀)
    · cases b
      · refine absurd hv (visit_ne_false hacyc fuel s v s₁ hInv ?_)
        intro x hx
        rw [hvisg] at hx
        exact absurd hx (Finset.not_mem_empty x)
      · have hp := visit_ok fuel s v s₁ hInv hv
        have hvisg₁ : s₁.visiting = ∅ := hp.visiting_eq.trans hvisg
        exact ih s₁ hp.inv hvisg₁ (fun v' hv' => hvs v' (List.mem_cons_of_mem v hv')) hcard

/-! ## From the DFS lemmas to `topologicalSort` -/


theorem initState_inv (edges : List PipelineEdge) :
    SortInv edges ⟨∅, ∅, []⟩ := by
  refine ⟨List.nodup_nil, ?_, ?_⟩
  · intro x
    simp
  · intro v hv
    exact absurd hv (List.not_mem_nil v)


theorem topologicalSort_isSome (p : Pipeline)
    (hsrc : ∀ e ∈ p.edges, e.source ∈ nodeIds p)
    (hacyc : ∀ a, ¬ Relation.TransGen (erel p.edges) a a) :
    topologicalSort p ≠ none := by
  have hU : ∀ e ∈ p.edges, e.source ∈ (nodeIds p).toFinset := by
    intro e he
    exact List.mem_toFinset.mpr (hsrc e he)
  have hcard : (nodeIds p).toFinset.card < sortFuel p := by
    have h1 : (nodeIds p).toFinset.card ≤ (nodeIds p).length := (nodeIds p).toFinset_card_le
    have h2 : (nodeIds p).length = p.nodes.length := List.length_map p.nodes PipelineNode.id
    unfold sortFuel
    omega
  have hs := @sortNodes_isSome p.edges (sortFuel p) (nodeIds p).toFinset hU hacyc
    (nodeIds p) ⟨∅, ∅, []⟩ (initState_inv p.edges) rfl
    (fun v hv => List.mem_toFinset.mpr hv) hcard
  intro hcontra
  unfold topologicalSort at hcontra
  rw [Option.map_eq_none'] at hcontra
  exact hs hcontra

theorem topologicalSort_spec (p : Pipeline) (l : List String)
    (h : topologicalSort p = some l) :
    l.Nodup ∧ (∀ x ∈ l, x ∈ nodeIds p ∨ erelSrc p.edges x) ∧
      (∀ v ∈ nodeIds p, v ∈ l) ∧
      (∀ e ∈ p.edges, e.target ∈ nodeIds p → List.Sublist [e.source, e.target] l) := by
  unfold topologicalSort at h
  rcases hs : sortNodes p.edges (sortFuel p) ⟨∅, ∅, []⟩ (p.nodes.map PipelineNode.id)
    with _ | s'
  · rw [hs] at h
    exact absurd h (by simp)
  · rw [hs] at h
    simp only [Option.map_some', Option.some.injEq] at h
    subst h
    have hpost := sortNodes_ok (nodeIds p) ⟨∅, ∅, []⟩ s' (initState_inv p.edges) hs
    refine ⟨hpost.inv.nodup, ?_, ?_, ?_⟩
    · intro x hx
      have hxv : x ∈ s'.visited := (hpost.inv.mem_iff x).mp hx
      rcases hpost.new_visited x hxv with hc | ⟨_, hc⟩
      · exact absurd hc (Finset.not_mem_empty x)
      · exact hc
    · intro v hv
      exact (hpost.inv.mem_iff v).mpr (hpost.all_visited v hv)
    · intro e he htgt
      have htv : e.target ∈ s'.result :=
        (hpost.inv.mem_iff e.target).mpr (hpost.all_visited e.target htgt)
      have hdep : e.source ∈ sortDeps p.edges e.target :=
        mem_sortDeps.mpr ⟨e, he, rfl, rfl⟩
      exact hpost.inv.sorted e.target htv e.source hdep

/-- A duplicate-free list orders its elements by `indexOf`. -/
theorem nodup_pairwise_indexOf {l : List String} (hn : l.Nodup) :
    l.Pairwise (fun a b => l.indexOf a < l.indexOf b) := by
  induction l with
  | nil => exact List.Pairwise.nil
  | cons a l ih =>
    have hal : a ∉ l := (List.nodup_cons.mp hn).1
    have hnl : l.Nodup := (List.nodup_cons.mp hn).2
    have hidx : ∀ b ∈ l, (a :: l).indexOf b = l.indexOf b + 1 := by
      intro b hb
      have hba : b ≠ a := fun hc => hal (hc ▸ hb)
      have hb' : (a == b) = false := beq_eq_false_iff_ne.mpr (fun hh => hba hh.symm)
      simp [List.indexOf_cons, hb']
    refine List.Pairwise.cons ?_ ?_
    · intro b hb
      rw [List.indexOf_cons_self, hidx b hb]
      omega
    · refine (ih hnl).imp_of_mem ?_
      intro b c hb hc hbc
      rw [hidx b hb, hidx c hc]
      omega

/-- In a duplicate-free list, a two-element sublist means the first element
has the smaller index. -/
theorem indexOf_lt_of_pair_sublist {l : List String} {x y : String} (hn : l.Nodup)
    (h : List.Sublist [x, y] l) : l.indexOf x < l.indexOf y := by
  have hp := (nodup_pairwise_indexOf hn).sublist h
  exact List.rel_of_pairwise_cons hp (List.mem_singleton_self y)

theorem topologicalSort_eq_none_of_cycle (p : Pipeline)
    (htgt : ∀ e ∈ p.edges, e.target ∈ nodeIds p)
    (hcyc : ∃ a, Relation.TransGen (erel p.edges) a a) :
    topologicalSort p = none := by
  rcases h : topologicalSort p with _ | l
  · rfl
  · exfalso
    obtain ⟨hn, _, _, hord⟩ := topologicalSort_spec p l h
    have key : ∀ a b, Relation.TransGen (erel p.edges) a b → l.indexOf a < l.indexOf b := by
      intro a b hab
      induction hab with
      | single h1 =>
        obtain ⟨e, he, hs', ht'⟩ := h1
        have hsub := hord e he (htgt e he)
        rw [hs', ht'] at hsub
        exact indexOf_lt_of_pair_sublist hn hsub
      | tail _ h1 ihab =>
        obtain ⟨e, he, hs', ht'⟩ := h1
        have hsub := hord e he (htgt e he)
        rw [hs', ht'] at hsub
        exact ihab.trans (indexOf_lt_of_pair_sublist hn hsub)
    obtain ⟨a, ha⟩ := hcyc
    exact absurd (key a a ha) (lt_irrefl _)

/-- A relation whose every step leaves a set `P` has no cycles. -/
theorem transGen_irrefl_of_oneway {α : Type} {r : α → α → Prop} (P : α → Prop)
    (h : ∀ a b, r a b → P a ∧ ¬ P b) : ∀ a, ¬ Relation.TransGen r a a := by
  have key : ∀ a b, Relation.TransGen r a b → P a ∧ ¬ P b := by
    intro a b hab
    induction hab with
    | single h1 => exact h _ _ h1
    | tail _ h1 ihab => exact ⟨ihab.1, (h _ _ h1).2⟩
  intro a ha
  exact (key a a ha).2 (key a a ha).1

/-! ## Claim C1: the scheduler produces a topological order -/

/-- **C1.** For every pipeline whose node ids are duplicate-free, whose edges
all reference declared node ids, and whose edge-induced directed graph is
acyclic, `topologicalSort` returns a list that is a permutation of all the
pipeline's node ids in which every edge's source appears strictly before its
target. -/
theorem C1_topologicalSort_sound (p : Pipeline)
    (hids : (nodeIds p).Nodup)
    (hsrc : ∀ e ∈ p.edges, e.source ∈ nodeIds p)
    (htgt : ∀ e ∈ p.edges, e.target ∈ nodeIds p)
    (hacyc : ∀ a, ¬ Relation.TransGen (erel p.edges) a a) :
    ∃ l, topologicalSort p = some l ∧ l.Perm (nodeIds p) ∧
      ∀ e ∈ p.edges, List.Sublist [e.source, e.target] l := by
  rcases h : topologicalSort p with _ | l
  · exact absurd h (topologicalSort_isSome p hsrc hacyc)
  · obtain ⟨hn, hbound, hall, hord⟩ := topologicalSort_spec p l h
    refine ⟨l, rfl, ?_, ?_⟩
    · refine (List.perm_ext_iff_of_nodup hn hids).mpr ?_
      intro x
      constructor
      · intro hx
        rcases hbound x hx with hx' | ⟨e, he, hsx⟩
        · exact hx'
        · exact hsx ▸ hsrc e he
      · exact hall x
    · intro e he
      exact hord e he (htgt e he)

/-- Witness for C1 on the concrete two-node pipeline. -/
theorem C1_topologicalSort_sound_witness :
    (nodeIds simplePipeline).Nodup ∧
    (∀ e ∈ simplePipeline.edges, e.source ∈ nodeIds simplePipeline) ∧
    (∀ e ∈ simplePipeline.edges, e.target ∈ nodeIds simplePipeline) ∧
    (∀ a, ¬ Relation.TransGen (erel simplePipeline.edges) a a) ∧
    (∃ l, topologicalSort simplePipeline = some l ∧ l.Perm (nodeIds simplePipeline) ∧
      ∀ e ∈ simplePipeline.edges, List.Sublist [e.source, e.target] l) := by
  have hacyc : ∀ a, ¬ Relation.TransGen (erel simplePipeline.edges) a a := by
    refine transGen_irrefl_of_oneway (fun x => x = "in1") ?_
    rintro a b ⟨e, he, hs, ht⟩
    have he' : e = mkEdge "e1" "in1" "out1" (some "text") (some "text") := by
      simpa [simplePipeline] using he
    subst he'
    subst hs
    subst ht
    exact ⟨by decide, by decide⟩
  exact ⟨by decide, by decide, by decide, hacyc,
    C1_topologicalSort_sound simplePipeline (by decide) (by decide) (by decide) hacyc⟩

/-! ## Claim C4: cycles -/

/-- **C4, counterexample.** `danglingNodePipeline`'s edge-induced graph has a
cycle (`X -> Y -> X`), yet the scheduler does not return the cycle error: it
returns the ordering `["A"]`, and the overall compilation fails without the
cycle diagnostic (the failure carries validation errors instead). -/
theorem C4_counterexample :
    Relation.TransGen (erel danglingNodePipeline.edges) "X" "X" ∧
    topologicalSort danglingNodePipeline = some ["A"] ∧
    (generate danglingNodePipeline "T").success = false ∧
    circularMsg ∉ (generate danglingNodePipeline "T").errors := by
  refine ⟨?_, by decide, by decide, by decide⟩
  exact Relation.TransGen.head
    ⟨mkEdge "eXY" "X" "Y" none none, by decide, rfl, rfl⟩
    (Relation.TransGen.single ⟨mkEdge "eYX" "Y" "X" none none, by decide, rfl, rfl⟩)

/-- **C4 (amended).** For every pipeline whose edges all reference declared
node ids and whose edge-induced graph contains a cycle, the scheduler returns
the cycle error (`none`) and never a partial ordering; if moreover validation
reports no diagnostics, the overall compilation produces exactly the failure
result carrying the cycle diagnostic and no generated source text. -/
theorem C4_amended_cycle_rejected (p : Pipeline) (now : String)
    (hsrc : ∀ e ∈ p.edges, e.source ∈ nodeIds p)
    (htgt : ∀ e ∈ p.edges, e.target ∈ nodeIds p)
    (hcyc : ∃ a, Relation.TransGen (erel p.edges) a a) :
    topologicalSort p = none ∧
      (validatePipeline p = [] →
        generate p now = { success := false, kotlinCode := none, buildGradle := none,
                           errors := [circularMsg], warnings := [] }) := by
  have hnone := topologicalSort_eq_none_of_cycle p htgt hcyc
  refine ⟨hnone, ?_⟩
  intro hv
  unfold generate
  simp [hv, hnone]

/-- Witness for the amended C4 on the concrete two-node cyclic pipeline. -/
theorem C4_amended_cycle_rejected_witness :
    (∀ e ∈ cyclePipeline.edges, e.source ∈ nodeIds cyclePipeline) ∧
    (∀ e ∈ cyclePipeline.edges, e.target ∈ nodeIds cyclePipeline) ∧
    Relation.TransGen (erel cyclePipeline.edges) "in1" "in1" ∧
    validatePipeline cyclePipeline = [] ∧
    topologicalSort cyclePipeline = none ∧
    generate cyclePipeline "T" = { success := false, kotlinCode := none, buildGradle := none,
                                   errors := [circularMsg], warnings := [] } := by
  have hcyc : Relation.TransGen (erel cyclePipeline.edges) "in1" "in1" :=
    Relation.TransGen.head
      ⟨mkEdge "e1" "in1" "out1" (some "text") (some "text"), by decide, rfl, rfl⟩
      (Relation.TransGen.single
        ⟨mkEdge "e2" "out1" "in1" (some "back") (some "back"), by decide, rfl, rfl⟩)
  have h := C4_amended_cycle_rejected cyclePipeline "T" (by decide) (by decide) ⟨"in1", hcyc⟩
  exact ⟨by decide, by decide, hcyc, by decide, h.1, h.2 (by decide)⟩

/-! ## Claim C7: the declaration-order tie-break -/

/-- **C7, counterexample.** In `tiebreakPipeline` (declared order `A`, `B`,
`C`, single edge `C -> A`), nodes `B` and `C` have no directed path between
them in either direction, `B` is declared before `C`, yet the scheduler
emits `C` before `B`: the declaration-order tie-break does not hold. -/
theorem C7_counterexample :
    topologicalSort tiebreakPipeline = some ["C", "A", "B"] ∧
    ¬ Relation.TransGen (erel tiebreakPipeline.edges) "B" "C" ∧
    ¬ Relation.TransGen (erel tiebreakPipeline.edges) "C" "B" := by
  have hstep : ∀ a b, erel tiebreakPipeline.edges a b → a = "C" ∧ b = "A" := by
    rintro a b ⟨e, he, hs, ht⟩
    have he' : e = mkEdge "e1" "C" "A" none none := by
      simpa [tiebreakPipeline] using he
    subst he'
    subst hs
    subst ht
    exact ⟨rfl, rfl⟩
  have key : ∀ a b, Relation.TransGen (erel tiebreakPipeline.edges) a b →
      a = "C" ∧ b = "A" := by
    intro a b hab
    induction hab with
    | single h1 => exact hstep _ _ h1
    | tail _ h1 ihab =>
      obtain ⟨hmc, _⟩ := hstep _ _ h1
      obtain ⟨ha, hma⟩ := ihab
      exact absurd (hma.symm.trans hmc) (by decide)
  refine ⟨by decide, ?_, ?_⟩
  · intro h
    exact absurd (key _ _ h).1 (by decide)
  · intro h
    exact absurd (key _ _ h).2 (by decide)

theorem sortNodes_no_edges (fuel : Nat) :
    ∀ (vs : List String) (s : SortState), vs.Nodup → s.visiting = ∅ →
      (∀ v ∈ vs, v ∉ s.visited) →
      ∃ s', sortNodes [] (fuel + 1) s vs = some s' ∧ s'.result = s.result ++ vs ∧
        s'.visiting = ∅ := by
  intro vs
  induction vs with
  | nil =>
    intro s _ hvisg _
    exact ⟨s, rfl, by simp, hvisg⟩
  | cons v vs ih =>
    intro s hnd hvisg hvtd
    have hnv : v ∉ s.visiting := by
      rw [hvisg]
      exact Finset.not_mem_empty v
    have hnvd : v ∉ s.visited := hvtd v (List.mem_cons_self v vs)
    have hvisit : visit [] (fuel + 1) s v =
        some (true, ⟨(insert v s.visiting).erase v, insert v s.visited,
          s.result ++ [v]⟩) := by
      simp only [visit, if_neg hnv, if_neg hnvd]
      rfl
    have herase : (insert v s.visiting).erase v = ∅ := by
      rw [Finset.erase_insert hnv, hvisg]
    have hnext : ∀ v' ∈ vs, v' ∉ (insert v s.visited : Finset String) := by
      intro v' hv'
      simp only [Finset.mem_insert]
      rintro (rfl | hc)
      · exact (List.nodup_cons.mp hnd).1 hv'
      · exact hvtd v' (List.mem_cons_of_mem v hv') hc
    obtain ⟨s', hs', hres, hvis'⟩ := ih ⟨(insert v s.visiting).erase v, insert v s.visited,
        s.result ++ [v]⟩ (List.nodup_cons.mp hnd).2 herase hnext
    refine ⟨s', ?_, ?_, hvis'⟩
    · simp only [sortNodes, hvisit]
      exact hs'
    · rw [hres]
      simp
theorem C7_amended_no_edges_declaration_order (p : Pipeline)
    (hne : p.edges = []) (hids : (nodeIds p).Nodup) :
    topologicalSort p = some (nodeIds p) := by
  unfold topologicalSort
  rw [hne]
  have hfuel : sortFuel p = (p.nodes.length + p.edges.length) + 1 := rfl
  rw [hfuel]
  obtain ⟨s', hs', hres, _⟩ := sortNodes_no_edges (p.nodes.length + p.edges.length)
    (p.nodes.map PipelineNode.id) ⟨∅, ∅, []⟩ hids rfl (by simp)
  rw [hs']
  simp only [Option.map_some', Option.some.injEq]
  rw [hres]
  simp [nodeIds]

/-! ## The `generate` success path -/

theorem generate_eq_of_parts (p : Pipeline) (now : String) (order : List String)
    (classBody executionSequence : String)
    (hv : validatePipeline p = []) (ho : topologicalSort p = some order)
    (hcb : generateClassBody p order = some classBody)
    (hes : generateExecutionSequence p order = some executionSequence) :
    generate p now =
      { success := true
        kotlinCode := some (kotlinPrefix p ++ now ++ kotlinBody p classBody executionSequence)
        buildGradle := some generateBuildGradle, errors := [], warnings := getWarnings p } := by
  unfold generate
  simp only [hv, ho, List.length_nil, lt_irrefl, if_false]
  unfold generateKotlinCode
  rw [hcb, hes]

/-! ## Claim C5: unknown node category -/

/-- **C5** (the claim is the spec's stated intent; the code does not do it):
on `unknownCategoryPipeline`, whose node `mystery` has category `banana` —
none of the six registered categories — compilation nevertheless succeeds
with no error, and `generateNodeLogic` silently emits the no-op comment body
`// Unknown node type` for that node instead of failing loudly. -/
theorem C5_unknown_category_silent_noop :
    mysteryNode ∈ unknownCategoryPipeline.nodes ∧
    mysteryNode.data.type ∉ [NodeType.INPUT, NodeType.PROCESSING, NodeType.RETRIEVAL,
      NodeType.LLM, NodeType.LOGIC, NodeType.OUTPUT] ∧
    validatePipeline unknownCategoryPipeline = [] ∧
    (generate unknownCategoryPipeline "T").success = true ∧
    (generate unknownCategoryPipeline "T").errors = [] ∧
    generateNodeLogic unknownCategoryPipeline mysteryNode = unknownNodeTypeMsg := by
  decide

theorem gkc_error_shape (p : Pipeline) (order : List String) (now : String)
    (h : generateClassBody p order = none ∨ generateExecutionSequence p order = none) :
    generateKotlinCode p order now = Except.error undefinedNodeMsg := by
  unfold generateKotlinCode
  rcases hcb : generateClassBody p order with _ | classBody
  · rfl
  · rcases hes : generateExecutionSequence p order with _ | executionSequence
    · rfl
    · rcases h with h | h
      · rw [hcb] at h
        exact absurd h (by simp)
      · rw [hes] at h
        exact absurd h (by simp)

theorem generate_cases (p : Pipeline) (now : String) :
    (0 < (validatePipeline p).length ∧
      generate p now = { success := false, kotlinCode := none, buildGradle := none,
                         errors := validatePipeline p, warnings := [] }) ∨
    (validatePipeline p = [] ∧ topologicalSort p = none ∧
      generate p now = { success := false, kotlinCode := none, buildGradle := none,
                         errors := [circularMsg], warnings := [] }) ∨
    (∃ order, validatePipeline p = [] ∧ topologicalSort p = some order ∧
      generate p now = { success := false, kotlinCode := none, buildGradle := none,
                         errors := ["Code generation failed: " ++ undefinedNodeMsg],
                         warnings := [] }) ∨
    (∃ order classBody executionSequence,
      validatePipeline p = [] ∧ topologicalSort p = some order ∧
      generateClassBody p order = some classBody ∧
      generateExecutionSequence p order = some executionSequence ∧
      generate p now =
        { success := true
          kotlinCode := some (kotlinPrefix p ++ now ++ kotlinBody p classBody executionSequence)
          buildGradle := some generateBuildGradle, errors := [], warnings := getWarnings p }) := by
  by_cases hv : 0 < (validatePipeline p).length
  · refine Or.inl ⟨hv, ?_⟩
    simp only [generate, if_pos hv]
  · have hv' : validatePipeline p = [] := List.length_eq_zero.mp (Nat.eq_zero_of_not_pos hv)
    rcases ho : topologicalSort p with _ | order
    · refine Or.inr (Or.inl ⟨hv', rfl, ?_⟩)
      simp only [generate, hv', ho, List.length_nil, lt_irrefl, if_false]
    · rcases hcb : generateClassBody p order with _ | classBody
      · refine Or.inr (Or.inr (Or.inl ⟨order, hv', rfl, ?_⟩))
        have hk := gkc_error_shape p order now (Or.inl hcb)
        simp only [generate, hv', ho, hk, List.length_nil, lt_irrefl, if_false]
      · rcases hes : generateExecutionSequence p order with _ | executionSequence
        · refine Or.inr (Or.inr (Or.inl ⟨order, hv', rfl, ?_⟩))
          have hk := gkc_error_shape p order now (Or.inr hes)
          simp only [generate, hv', ho, hk, List.length_nil, lt_irrefl, if_false]
        · exact Or.inr (Or.inr (Or.inr ⟨order, classBody, executionSequence, hv', rfl, hcb, hes,
            generate_eq_of_parts p now order classBody executionSequence hv' ho hcb hes⟩))

theorem generate_success_shape (p : Pipeline) (now : String)
    (h : (generate p now).success = true) :
    ∃ order classBody executionSequence,
      validatePipeline p = [] ∧ topologicalSort p = some order ∧
      generateClassBody p order = some classBody ∧
      generateExecutionSequence p order = some executionSequence ∧
      generate p now =
        { success := true
          kotlinCode := some (kotlinPrefix p ++ now ++ kotlinBody p classBody executionSequence)
          buildGradle := some generateBuildGradle, errors := [], warnings := getWarnings p } := by
  rcases generate_cases p now with ⟨_, hg⟩ | ⟨_, _, hg⟩ | ⟨_, _, _, hg⟩ |
    ⟨order, classBody, executionSequence, hv, ho, hcb, hes, hg⟩
  · rw [hg] at h
    exact absurd h (by simp)
  · rw [hg] at h
    exact absurd h (by simp)
  · rw [hg] at h
    exact absurd h (by simp)
  · exact ⟨order, classBody, executionSequence, hv, ho, hcb, hes, hg⟩

/-! ## Claim C10: the entry point never lets an exception escape -/

/-- **C10.** For every raw input `(nodes, edges, name)` and timestamp, the
entry point `generateCodeFromPipeline` returns a total result value: either a
success with an empty error list, or a failure (`success = false`) with a
non-empty error list, no generated source text and no dependency manifest.
Every internal throw — the emission `TypeError` modelled by `Except.error` —
lands in the failure branch via `generate`'s catch conversion. -/
theorem C10_generate_never_escapes (rawNodes : List RawNode) (rawEdges : List RawEdge)
    (pipelineName : Option String) (now : String) :
    ((generateCodeFromPipeline rawNodes rawEdges pipelineName now).success = true ∧
      (generateCodeFromPipeline rawNodes rawEdges pipelineName now).errors = []) ∨
    ((generateCodeFromPipeline rawNodes rawEdges pipelineName now).success = false ∧
      (generateCodeFromPipeline rawNodes rawEdges pipelineName now).errors ≠ [] ∧
      (generateCodeFromPipeline rawNodes rawEdges pipelineName now).kotlinCode = none ∧
      (generateCodeFromPipeline rawNodes rawEdges pipelineName now).buildGradle = none) := by
  unfold generateCodeFromPipeline
  rcases generate_cases (buildPipeline rawNodes rawEdges (pipelineName.getD "Generated Pipeline"))
      now with ⟨hv, hg⟩ | ⟨_, _, hg⟩ | ⟨_, _, _, hg⟩ | ⟨_, _, _, _, _, _, _, hg⟩
  · rw [hg]
    exact Or.inr ⟨rfl, List.ne_nil_of_length_pos hv, rfl, rfl⟩
  · rw [hg]
    exact Or.inr ⟨rfl, by simp, rfl, rfl⟩
  · rw [hg]
    exact Or.inr ⟨rfl, by simp, rfl, rfl⟩
  · rw [hg]
    exact Or.inl ⟨rfl, rfl⟩

/-! ## Claim C6: deterministic emission modulo the timestamp -/

/-- **C6.** Compiling the same pipeline value twice (the generation timestamp
being the only non-deterministic input) yields the same success, an identical
dependency manifest, and source texts that are byte-identical except for the
timestamp substring: there are `pre` and `post`, depending only on the
pipeline, with `kotlinCode = pre ++ timestamp ++ post` in both runs. -/
theorem C6_deterministic_emission (p : Pipeline) (now₁ now₂ : String)
    (h : (generate p now₁).success = true) :
    (generate p now₂).success = true ∧
    (generate p now₂).buildGradle = (generate p now₁).buildGradle ∧
    ∃ pre post,
      (generate p now₁).kotlinCode = some (pre ++ now₁ ++ post) ∧
      (generate p now₂).kotlinCode = some (pre ++ now₂ ++ post) := by
  obtain ⟨order, classBody, executionSequence, hv, ho, hcb, hes, hg₁⟩ :=
    generate_success_shape p now₁ h
  have hg₂ := generate_eq_of_parts p now₂ order classBody executionSequence hv ho hcb hes
  rw [hg₁, hg₂]
  exact ⟨rfl, rfl, kotlinPrefix p, kotlinBody p classBody executionSequence, rfl, rfl⟩

/-- Witness for C6: two runs on `simplePipeline` with distinct timestamps. -/
theorem C6_deterministic_emission_witness :
    (generate simplePipeline "2024-01-01T00:00:00.000Z").success = true ∧
    (generate simplePipeline "2024-01-02T00:00:00.000Z").success = true ∧
    (generate simplePipeline "2024-01-02T00:00:00.000Z").buildGradle =
      (generate simplePipeline "2024-01-01T00:00:00.000Z").buildGradle ∧
    ∃ pre post,
      (generate simplePipeline "2024-01-01T00:00:00.000Z").kotlinCode =
        some (pre ++ "2024-01-01T00:00:00.000Z" ++ post) ∧
      (generate simplePipeline "2024-01-02T00:00:00.000Z").kotlinCode =
        some (pre ++ "2024-01-02T00:00:00.000Z" ++ post) := by
  have h := C6_deterministic_emission simplePipeline
    "2024-01-01T00:00:00.000Z" "2024-01-02T00:00:00.000Z" (by decide)
  exact ⟨by decide, h.1, h.2.1, h.2.2⟩

/-! ## Claim C9: warnings -/

theorem emptyCfgMsg_inj {a b : String} (h : emptyCfgMsg a = emptyCfgMsg b) : a = b := by
  have hd := congrArg String.data h
  simp only [emptyCfgMsg, String.data_append] at hd
  rw [List.append_assoc, List.append_assoc] at hd
  have h1 := List.append_cancel_left hd
  have h2 := List.append_cancel_right h1
  exact String.ext h2

theorem emptyCfgMsg_ne_complexityMsg (L : String) : emptyCfgMsg L ≠ complexityMsg := by
  intro h
  have h0 : (emptyCfgMsg L).data.head? = some 'N' := rfl
  rw [h] at h0
  exact absurd h0 (by decide)

theorem count_complexity_flatMap (nodes : List PipelineNode) :
    (nodes.flatMap (fun node =>
      if node.data.config.length = 0 then [emptyCfgMsg node.data.label] else [])).count
        complexityMsg = 0 := by
  rw [List.count_eq_zero]
  intro hmem
  obtain ⟨n, _, hm⟩ := List.mem_flatMap.mp hmem
  by_cases hc : n.data.config.length = 0
  · rw [if_pos hc] at hm
    exact emptyCfgMsg_ne_complexityMsg n.data.label (List.mem_singleton.mp hm).symm
  · rw [if_neg hc] at hm
    exact absurd hm (List.not_mem_nil _)

theorem count_emptyCfg (nodes : List PipelineNode) (L : String) :
    (nodes.flatMap (fun node =>
      if node.data.config.length = 0 then [emptyCfgMsg node.data.label] else [])).count
        (emptyCfgMsg L) =
      (nodes.filter (fun n => n.data.config.length == 0 && n.data.label == L)).length := by
  induction nodes with
  | nil => rfl
  | cons n ns ih =>
    rw [List.flatMap_cons, List.count_append, ih, List.filter_cons]
    by_cases hc : n.data.config.length = 0
    · by_cases hl : n.data.label = L
      · have hpred : (n.data.config.length == 0 && n.data.label == L) = true := by
          simp [hc, hl]
        rw [if_pos hc, hpred, if_pos rfl, hl]
        simp [List.count_cons]
        omega
      · have hpred : (n.data.config.length == 0 && n.data.label == L) = false := by
          simp [hc, hl]
        have hne : (emptyCfgMsg L == emptyCfgMsg n.data.label) = false :=
          beq_eq_false_iff_ne.mpr (fun hh => hl (emptyCfgMsg_inj hh.symm))
        rw [if_pos hc, hpred, if_neg (by simp)]
        simp [List.count_cons, hne]
        exact fun hh => hl (emptyCfgMsg_inj hh)
    · have hpred : (n.data.config.length == 0 && n.data.label == L) = false := by
        simp [hc]
      rw [if_neg hc, hpred, if_neg (by simp)]
      simp

/-- **C9.** For every compiled (successful) pipeline, the returned warnings
contain the complexity warning exactly when more than 10 Processing-category
nodes exist, and exactly one empty-config warning for each node whose config
map is empty (counted per label, since the warning text names the label). -/
theorem C9_warnings_content (p : Pipeline) (now : String)
    (h : (generate p now).success = true) :
    ((generate p now).warnings.count complexityMsg =
      if 10 < (p.nodes.filter (fun n => n.data.type == NodeType.PROCESSING)).length
      then 1 else 0) ∧
    ∀ L, (generate p now).warnings.count (emptyCfgMsg L) =
      (p.nodes.filter (fun n => n.data.config.length == 0 && n.data.label == L)).length := by
  obtain ⟨order, classBody, executionSequence, hv, ho, hcb, hes, hg⟩ :=
    generate_success_shape p now h
  rw [hg]
  constructor
  · show (getWarnings p).count complexityMsg = _
    unfold getWarnings
    rw [List.count_append, count_complexity_flatMap]
    by_cases hcond :
        10 < (p.nodes.filter (fun n => n.data.type == NodeType.PROCESSING)).length
    · rw [if_pos hcond, if_pos hcond]
      simp
    · rw [if_neg hcond, if_neg hcond]
      simp
  · intro L
    show (getWarnings p).count (emptyCfgMsg L) = _
    unfold getWarnings
    rw [List.count_append, count_emptyCfg]
    have hz : (if 10 < (p.nodes.filter
        (fun n => n.data.type == NodeType.PROCESSING)).length
        then [complexityMsg] else []).count (emptyCfgMsg L) = 0 := by
      have hne : (emptyCfgMsg L == complexityMsg) = false :=
        beq_eq_false_iff_ne.mpr (emptyCfgMsg_ne_complexityMsg L)
      by_cases hcond :
          10 < (p.nodes.filter (fun n => n.data.type == NodeType.PROCESSING)).length
      · rw [if_pos hcond]
        simp [List.count_cons, hne]
        exact fun hh => emptyCfgMsg_ne_complexityMsg L hh.symm
      · rw [if_neg hcond]
        rfl
    rw [hz]
    omega

/-- Witness for C9 on `simplePipeline` (both nodes have empty config, zero
Processing nodes). -/
theorem C9_warnings_content_witness :
    (generate simplePipeline "T").success = true ∧
    (generate simplePipeline "T").warnings.count complexityMsg = 0 ∧
    (generate simplePipeline "T").warnings.count (emptyCfgMsg "Text Input") = 1 := by
  have h := C9_warnings_content simplePipeline "T" (by decide)
  refine ⟨by decide, ?_, ?_⟩
  · rw [h.1]
    decide
  · rw [h.2 "Text Input"]
    decide

/-- Witness for the amended C7 on the edge-free two-node pipeline. -/
theorem C7_amended_no_edges_declaration_order_witness :
    noEdgesPipeline.edges = [] ∧ (nodeIds noEdgesPipeline).Nodup ∧
    topologicalSort noEdgesPipeline = some (nodeIds noEdgesPipeline) :=
  ⟨rfl, by decide,
    C7_amended_no_edges_declaration_order noEdgesPipeline rfl (by decide)⟩

/-! ## Claim C8: structural diagnostics -/

theorem edgeErrors_head {p : Pipeline} {e : PipelineEdge} {m : String}
    (hm : m ∈ edgeErrors p e) : m.data.head? = some 'I' := by
  unfold edgeErrors at hm
  rcases h1 : p.nodes.find? (fun n => n.id == e.source) with _ | sn
  · rw [h1] at hm
    replace hm : m ∈ [invalidConnMsg e] := hm
    rw [List.mem_singleton.mp hm]
    rfl
  · rw [h1] at hm
    rcases h2 : p.nodes.find? (fun n => n.id == e.target) with _ | tn
    · rw [h2] at hm
      replace hm : m ∈ [invalidConnMsg e] := hm
      rw [List.mem_singleton.mp hm]
      rfl
    · rw [h2] at hm
      replace hm : m ∈ (match sn.data.outputs.find? (fun q => some q.id == e.sourceHandle),
          tn.data.inputs.find? (fun q => some q.id == e.targetHandle) with
        | some sourcePort, some targetPort =>
          if isDataTypeCompatible sourcePort.dataType targetPort.dataType then []
          else [incompatMsg sourcePort.dataType targetPort.dataType
                  sn.data.label tn.data.label]
        | _, _ => []) := hm
      rcases h3 : sn.data.outputs.find? (fun q => some q.id == e.sourceHandle) with _ | sp
      · rw [h3] at hm
        replace hm : m ∈ ([] : List String) := hm
        exact absurd hm (List.not_mem_nil m)
      · rw [h3] at hm
        rcases h4 : tn.data.inputs.find? (fun q => some q.id == e.targetHandle) with _ | tp
        · rw [h4] at hm
          replace hm : m ∈ ([] : List String) := hm
          exact absurd hm (List.not_mem_nil m)
        · rw [h4] at hm
          replace hm : m ∈ (if isDataTypeCompatible sp.dataType tp.dataType then []
            else [incompatMsg sp.dataType tp.dataType sn.data.label tn.data.label]) := hm
          by_cases hcomp : isDataTypeCompatible sp.dataType tp.dataType = true
          · rw [if_pos hcomp] at hm
            exact absurd hm (List.not_mem_nil m)
          · rw [if_neg hcomp] at hm
            rw [List.mem_singleton.mp hm]
            rfl

theorem count_edge_msgs_zero (p : Pipeline) {msg : String}
    (hmsg : msg.data.head? = some 'P') :
    (p.edges.flatMap (edgeErrors p)).count msg = 0 := by
  rw [List.count_eq_zero]
  intro hmem
  obtain ⟨e, _, hm⟩ := List.mem_flatMap.mp hmem
  exact absurd (hmsg.symm.trans (edgeErrors_head hm)) (by decide)

/-- **C8.** `validate` (a total function in this model: it never throws)
collects rather than short-circuits: its result contains the
missing-input StructuralError exactly once when no Input-category node
exists and zero times otherwise, and independently the missing-output
StructuralError exactly once when no Output-category node exists; both are
present when both categories are absent. -/
theorem C8_structural_errors (p : Pipeline) :
    ((validatePipeline p).count missingInputMsg =
      if ∃ n ∈ p.nodes, n.data.type = NodeType.INPUT then 0 else 1) ∧
    ((validatePipeline p).count missingOutputMsg =
      if ∃ n ∈ p.nodes, n.data.type = NodeType.OUTPUT then 0 else 1) := by
  have hcondIn : (p.nodes.filter (fun n => n.data.type == NodeType.INPUT)).length = 0 ↔
      ¬ ∃ n ∈ p.nodes, n.data.type = NodeType.INPUT := by
    rw [List.length_eq_zero, List.filter_eq_nil_iff]
    simp [beq_iff_eq]
  have hcondOut : (p.nodes.filter (fun n => n.data.type == NodeType.OUTPUT)).length = 0 ↔
      ¬ ∃ n ∈ p.nodes, n.data.type = NodeType.OUTPUT := by
    rw [List.length_eq_zero, List.filter_eq_nil_iff]
    simp [beq_iff_eq]
  unfold validatePipeline
  constructor
  · rw [List.count_append, List.count_append,
      count_edge_msgs_zero p (show missingInputMsg.data.head? = some 'P' by decide)]
    have hB : (if (p.nodes.filter (fun n => n.data.type == NodeType.OUTPUT)).length = 0
        then [missingOutputMsg] else []).count missingInputMsg = 0 := by
      by_cases hcond : (p.nodes.filter (fun n => n.data.type == NodeType.OUTPUT)).length = 0
      · rw [if_pos hcond]
        simp [List.count_cons]
        decide
      · rw [if_neg hcond]
        rfl
    rw [hB]
    by_cases hex : ∃ n ∈ p.nodes, n.data.type = NodeType.INPUT
    · rw [if_pos hex, if_neg (fun hc => (hcondIn.mp hc) hex)]
      rfl
    · rw [if_neg hex, if_pos (hcondIn.mpr hex)]
      simp
  · rw [List.count_append, List.count_append,
      count_edge_msgs_zero p (show missingOutputMsg.data.head? = some 'P' by decide)]
    have hA : (if (p.nodes.filter (fun n => n.data.type == NodeType.INPUT)).length = 0
        then [missingInputMsg] else []).count missingOutputMsg = 0 := by
      by_cases hcond : (p.nodes.filter (fun n => n.data.type == NodeType.INPUT)).length = 0
      · rw [if_pos hcond]
        simp [List.count_cons]
        decide
      · rw [if_neg hcond]
        rfl
    rw [hA]
    by_cases hex : ∃ n ∈ p.nodes, n.data.type = NodeType.OUTPUT
    · rw [if_pos hex, if_neg (fun hc => (hcondOut.mp hc) hex)]
      rfl
    · rw [if_neg hex, if_pos (hcondOut.mpr hex)]
      simp

/-! ## Claim C3: dangling references -/

/-- **C3, counterexample.** In `danglingPortPipeline` the only edge's source
node resolves but its source port id (`bogus`) is not among that node's
outputs — a dangling edge in the claim's sense — yet `validate` returns the
empty list, so no ReferenceError is reported. -/
theorem C3_counterexample :
    danglingPortPipeline.edges =
      [mkEdge "e1" "in1" "out1" (some "bogus") (some "text")] ∧
    danglingPortPipeline.nodes.find?
      (fun n => n.id == (mkEdge "e1" "in1" "out1" (some "bogus") (some "text")).source) =
      some (mkNode "in1" NodeType.INPUT "Text Input" [] [mkPort "text" DataType.TEXT]) ∧
    (mkNode "in1" NodeType.INPUT "Text Input" []
        [mkPort "text" DataType.TEXT]).data.outputs.find?
      (fun q => some q.id ==
        (mkEdge "e1" "in1" "out1" (some "bogus") (some "text")).sourceHandle) = none ∧
    validatePipeline danglingPortPipeline = [] := by
  decide

/-- **C3 (amended).** `validate` reports the ReferenceError
(`Invalid connection: source -> target`) for every edge whose source or
target *node id* does not resolve; an edge whose node ids resolve but whose
source or target *port id* dangles contributes no diagnostic at all. -/
theorem C3_amended_reference_errors (p : Pipeline) (e : PipelineEdge) (he : e ∈ p.edges) :
    ((p.nodes.find? (fun n => n.id == e.source) = none ∨
      p.nodes.find? (fun n => n.id == e.target) = none) →
      invalidConnMsg e ∈ validatePipeline p) ∧
    (∀ sn tn, p.nodes.find? (fun n => n.id == e.source) = some sn →
      p.nodes.find? (fun n => n.id == e.target) = some tn →
      (sn.data.outputs.find? (fun q => some q.id == e.sourceHandle) = none ∨
        tn.data.inputs.find? (fun q => some q.id == e.targetHandle) = none) →
      edgeErrors p e = []) := by
  constructor
  · intro hdang
    have hmem : invalidConnMsg e ∈ edgeErrors p e := by
      unfold edgeErrors
      rcases hdang with h1 | h1
      · rw [h1]
        exact List.mem_singleton_self _
      · rcases h2 : p.nodes.find? (fun n => n.id == e.source) with _ | sn
        · rw [h2]
          exact List.mem_singleton_self _
        · rw [h2, h1]
          exact List.mem_singleton_self _
    unfold validatePipeline
    exact List.mem_append.mpr (Or.inr (List.mem_flatMap.mpr ⟨e, he, hmem⟩))
  · intro sn tn hsn htn hport
    unfold edgeErrors
    rw [hsn, htn]
    show (match sn.data.outputs.find? (fun q => some q.id == e.sourceHandle),
        tn.data.inputs.find? (fun q => some q.id == e.targetHandle) with
      | some sourcePort, some targetPort =>
        if isDataTypeCompatible sourcePort.dataType targetPort.dataType then []
        else [incompatMsg sourcePort.dataType targetPort.dataType
                sn.data.label tn.data.label]
      | _, _ => []) = []
    rcases hport with h3 | h3
    · rw [h3]
    · rcases h4 : sn.data.outputs.find? (fun q => some q.id == e.sourceHandle) with _ | sp
      · rw [h4]
      · rw [h4, h3]

/-- Witness for the amended C3: a dangling node id is reported, a dangling
port id contributes nothing. -/
theorem C3_amended_reference_errors_witness :
    invalidConnMsg (mkEdge "eXY" "X" "Y" none none) ∈
      validatePipeline danglingNodePipeline ∧
    edgeErrors danglingPortPipeline
      (mkEdge "e1" "in1" "out1" (some "bogus") (some "text")) = [] := by
  constructor
  · exact (C3_amended_reference_errors danglingNodePipeline
      (mkEdge "eXY" "X" "Y" none none) (by decide)).1 (Or.inl (by decide))
  · exact (C3_amended_reference_errors danglingPortPipeline
      (mkEdge "e1" "in1" "out1" (some "bogus") (some "text")) (by decide)).2
      (mkNode "in1" NodeType.INPUT "Text Input" [] [mkPort "text" DataType.TEXT])
      (mkNode "out1" NodeType.OUTPUT "Text Output" [mkPort "text" DataType.TEXT] [])
      (by decide) (by decide) (Or.inl (by decide))

/-! ## Claim C2: the type check against the Compatibility Matrix -/

theorem take_append_eq {a b r r' : List Char} (h : a ++ r = b ++ r')
    (hle : a.length ≤ b.length) : b.take a.length = a := by
  have h1 : (a ++ r).take a.length = a := List.take_left a r
  rw [h, List.take_append_of_le_length hle] at h1
  exact h1

/-- No declared data-type tag is a prefix of another, expressed through
`take`. -/
theorem knownTypes_take : ∀ s ∈ knownDataTypes, ∀ t ∈ knownDataTypes,
    t.data.take s.data.length = s.data → s = t := by decide

theorem knownTypes_append_cancel {s t : String} {r r' : List Char}
    (hs : s ∈ knownDataTypes) (ht : t ∈ knownDataTypes)
    (h : s.data ++ r = t.data ++ r') : s = t ∧ r = r' := by
  rcases Nat.le_total s.data.length t.data.length with hle | hle
  · have hst := knownTypes_take s hs t ht (take_append_eq h hle)
    subst hst
    exact ⟨rfl, List.append_cancel_left h⟩
  · have hts := knownTypes_take t ht s hs (take_append_eq h.symm hle)
    subst hts
    exact ⟨rfl, List.append_cancel_left h⟩

/-- Two equal `TypeError` messages built from declared data-type tags name
the same source and target types. -/
theorem incompatMsg_types_inj {s t a b s' t' a' b' : String}
    (hs : s ∈ knownDataTypes) (ht : t ∈ knownDataTypes)
    (hs' : s' ∈ knownDataTypes) (ht' : t' ∈ knownDataTypes)
    (h : incompatMsg s t a b = incompatMsg s' t' a' b') : s = s' ∧ t = t' := by
  have hd := congrArg String.data h
  simp only [incompatMsg, String.data_append, List.append_assoc] at hd
  have hd1 := List.append_cancel_left hd
  obtain ⟨hss, hd2⟩ := knownTypes_append_cancel hs hs' hd1
  have hd3 := List.append_cancel_left hd2
  obtain ⟨htt, _⟩ := knownTypes_append_cancel ht ht' hd3
  exact ⟨hss, htt⟩

theorem isDataTypeCompatible_eq_false_iff {s t : String} :
    isDataTypeCompatible s t = false ↔ (s ≠ t ∧ t ∉ compatibilityRules s) := by
  simp [isDataTypeCompatible]

theorem invalidConnMsg_ne_incompatMsg (e : PipelineEdge) (s t a b : String) :
    invalidConnMsg e ≠ incompatMsg s t a b := by
  intro h
  have h3 := congrArg (fun m => m.data[2]?) h
  exact absurd (show some 'v' = some 'c' from h3) (by decide)

theorem incompatMsg_ne_struct (s t a b msg : String)
    (hmsg : msg.data.head? = some 'P') : incompatMsg s t a b ≠ msg := by
  intro h
  have h0 : (incompatMsg s t a b).data.head? = some 'I' := rfl
  rw [h, hmsg] at h0
  exact absurd h0 (by decide)

theorem mem_ite_singleton {m msg0 : String} {c : Prop} [Decidable c]
    (h : m ∈ (if c then [msg0] else [])) : m = msg0 := by
  split at h
  · exact List.mem_singleton.mp h
  · exact absurd h (List.not_mem_nil m)

/-- Everything `validatePipeline`'s per-edge loop can push: the ReferenceError
for the edge, or a TypeError for the edge's resolved, incompatible ports. -/
theorem edgeErrors_mem_cases {p : Pipeline} {e : PipelineEdge} {m : String}
    (hm : m ∈ edgeErrors p e) :
    m = invalidConnMsg e ∨
    ∃ sn tn sPort tPort,
      p.nodes.find? (fun n => n.id == e.source) = some sn ∧
      p.nodes.find? (fun n => n.id == e.target) = some tn ∧
      sn.data.outputs.find? (fun q => some q.id == e.sourceHandle) = some sPort ∧
      tn.data.inputs.find? (fun q => some q.id == e.targetHandle) = some tPort ∧
      isDataTypeCompatible sPort.dataType tPort.dataType = false ∧
      m = incompatMsg sPort.dataType tPort.dataType sn.data.label tn.data.label := by
  unfold edgeErrors at hm
  rcases h1 : p.nodes.find? (fun n => n.id == e.source) with _ | sn
  · rw [h1] at hm
    replace hm : m ∈ [invalidConnMsg e] := hm
    exact Or.inl (List.mem_singleton.mp hm)
  · rw [h1] at hm
    rcases h2 : p.nodes.find? (fun n => n.id == e.target) with _ | tn
    · rw [h2] at hm
      replace hm : m ∈ [invalidConnMsg e] := hm
      exact Or.inl (List.mem_singleton.mp hm)
    · rw [h2] at hm
      replace hm : m ∈ (match sn.data.outputs.find? (fun q => some q.id == e.sourceHandle),
          tn.data.inputs.find? (fun q => some q.id == e.targetHandle) with
        | some sourcePort, some targetPort =>
          if isDataTypeCompatible sourcePort.dataType targetPort.dataType then []
          else [incompatMsg sourcePort.dataType targetPort.dataType
                  sn.data.label tn.data.label]
        | _, _ => []) := hm
      rcases h3 : sn.data.outputs.find? (fun q => some q.id == e.sourceHandle) with _ | sPort
      · rw [h3] at hm
        replace hm : m ∈ ([] : List String) := hm
        exact absurd hm (List.not_mem_nil m)
      · rw [h3] at hm
        rcases h4 : tn.data.inputs.find? (fun q => some q.id == e.targetHandle) with _ | tPort
        · rw [h4] at hm
          replace hm : m ∈ ([] : List String) := hm
          exact absurd hm (List.not_mem_nil m)
        · rw [h4] at hm
          replace hm : m ∈ (if isDataTypeCompatible sPort.dataType tPort.dataType then []
            else [incompatMsg sPort.dataType tPort.dataType
                    sn.data.label tn.data.label]) := hm
          by_cases hcomp : isDataTypeCompatible sPort.dataType tPort.dataType = true
          · rw [if_pos hcomp] at hm
            exact absurd hm (List.not_mem_nil m)
          · rw [if_neg hcomp] at hm
            have hfalse : isDataTypeCompatible sPort.dataType tPort.dataType = false := by
              simpa using hcomp
            exact Or.inr ⟨sn, tn, sPort, tPort, h1, h2, h3, h4, hfalse,
              List.mem_singleton.mp hm⟩

/-- **C2.** For every edge whose endpoints resolve to declared nodes and
declared ports (in a pipeline whose declared port types are among the seven
data-type tags), `validate`'s result contains the TypeError naming both port
types and both node labels exactly when the two types are unequal and the
Compatibility Matrix does not list the target type under the source type —
so exact type equality is always accepted regardless of the matrix. -/
theorem C2_type_compatibility (p : Pipeline) (e : PipelineEdge) (he : e ∈ p.edges)
    (sn tn : PipelineNode) (sPort tPort : Port)
    (hT : ∀ n ∈ p.nodes, (∀ q ∈ n.data.outputs, q.dataType ∈ knownDataTypes) ∧
      (∀ q ∈ n.data.inputs, q.dataType ∈ knownDataTypes))
    (hsn : p.nodes.find? (fun n => n.id == e.source) = some sn)
    (htn : p.nodes.find? (fun n => n.id == e.target) = some tn)
    (hsp : sn.data.outputs.find? (fun q => some q.id == e.sourceHandle) = some sPort)
    (htp : tn.data.inputs.find? (fun q => some q.id == e.targetHandle) = some tPort) :
    incompatMsg sPort.dataType tPort.dataType sn.data.label tn.data.label ∈
        validatePipeline p ↔
      (sPort.dataType ≠ tPort.dataType ∧
        tPort.dataType ∉ compatibilityRules sPort.dataType) := by
  have hsT : sPort.dataType ∈ knownDataTypes :=
    (hT sn (List.mem_of_find?_eq_some hsn)).1 sPort (List.mem_of_find?_eq_some hsp)
  have htT : tPort.dataType ∈ knownDataTypes :=
    (hT tn (List.mem_of_find?_eq_some htn)).2 tPort (List.mem_of_find?_eq_some htp)
  constructor
  · intro hmem
    unfold validatePipeline at hmem
    rcases List.mem_append.mp hmem with hmem | hmem
    · exfalso
      rcases List.mem_append.mp hmem with hmem | hmem
      · exact incompatMsg_ne_struct _ _ _ _ missingInputMsg (by decide)
          (mem_ite_singleton hmem)
      · exact incompatMsg_ne_struct _ _ _ _ missingOutputMsg (by decide)
          (mem_ite_singleton hmem)
    · obtain ⟨e', he', hm'⟩ := List.mem_flatMap.mp hmem
      rcases edgeErrors_mem_cases hm' with hinv |
        ⟨sn', tn', sPort', tPort', h1, h2, h3, h4, hcomp, heq⟩
      · exact absurd hinv.symm (invalidConnMsg_ne_incompatMsg e' _ _ _ _)
      · have hs'T : sPort'.dataType ∈ knownDataTypes :=
          (hT sn' (List.mem_of_find?_eq_some h1)).1 sPort' (List.mem_of_find?_eq_some h3)
        have ht'T : tPort'.dataType ∈ knownDataTypes :=
          (hT tn' (List.mem_of_find?_eq_some h2)).2 tPort' (List.mem_of_find?_eq_some h4)
        obtain ⟨hseq, hteq⟩ := incompatMsg_types_inj hsT htT hs'T ht'T heq
        rw [← hseq, ← hteq] at hcomp
        exact isDataTypeCompatible_eq_false_iff.mp hcomp
  · intro hrhs
    have hcomp : isDataTypeCompatible sPort.dataType tPort.dataType = false :=
      isDataTypeCompatible_eq_false_iff.mpr hrhs
    have hmem : incompatMsg sPort.dataType tPort.dataType sn.data.label tn.data.label ∈
        edgeErrors p e := by
      unfold edgeErrors
      rw [hsn, htn]
      show _ ∈ (match sn.data.outputs.find? (fun q => some q.id == e.sourceHandle),
          tn.data.inputs.find? (fun q => some q.id == e.targetHandle) with
        | some sourcePort, some targetPort =>
          if isDataTypeCompatible sourcePort.dataType targetPort.dataType then []
          else [incompatMsg sourcePort.dataType targetPort.dataType
                  sn.data.label tn.data.label]
        | _, _ => [])
      rw [hsp, htp]
      show _ ∈ (if isDataTypeCompatible sPort.dataType tPort.dataType then []
        else [incompatMsg sPort.dataType tPort.dataType sn.data.label tn.data.label])
      rw [if_neg (by simp [hcomp])]
      exact List.mem_singleton_self _
    unfold validatePipeline
    exact List.mem_append.mpr (Or.inr (List.mem_flatMap.mpr ⟨e, he, hmem⟩))

/-- Witness for C2 on `badTypesPipeline` (`text` feeding a `pdf` port). -/
theorem C2_type_compatibility_witness :
    (incompatMsg DataType.TEXT DataType.PDF "Text Input" "PDF Output" ∈
        validatePipeline badTypesPipeline ↔
      (DataType.TEXT ≠ DataType.PDF ∧
        DataType.PDF ∉ compatibilityRules DataType.TEXT)) ∧
    incompatMsg DataType.TEXT DataType.PDF "Text Input" "PDF Output" ∈
      validatePipeline badTypesPipeline := by
  have h := C2_type_compatibility badTypesPipeline
    (mkEdge "e1" "in1" "out1" (some "text") (some "pdf")) (by decide)
    (mkNode "in1" NodeType.INPUT "Text Input" [] [mkPort "text" DataType.TEXT])
    (mkNode "out1" NodeType.OUTPUT "PDF Output" [mkPort "pdf" DataType.PDF] [])
    (mkPort "text" DataType.TEXT) (mkPort "pdf" DataType.PDF)
    (by decide) (by decide) (by decide) (by decide) (by decide)
  exact ⟨h, h.mpr (by decide)⟩
